import Mathlib

/-!
# Verification of the tabular normalization/aggregation core (src/utils.ts)

Shallow embedding of the pure utility core of the ERP spreadsheet analysis
tool: `detectColumnType`, `parseDateSafe`, `cleanAndEnrichData`,
`getDatasetStats`, `getSmartSample`, `aggregateData`.

Modelling conventions:
* JavaScript strings are `List Char` (UTF-16 code units coincide with code
  points for the BMP characters appearing in this domain).
* JavaScript numbers appearing in cells are modelled as `Int` (the data in
  scope is integral); derived numeric computations are carried out in `ℚ`,
  which agrees with IEEE double arithmetic on the magnitudes involved
  (all intermediate values are far below 2^53, and threshold comparisons
  such as `> 0.8` are only ever applied to rationals with denominator ≤ 100,
  whose distance from the decimal literal exceeds any rounding error).
* `NaN`-valued timestamps/numbers are modelled as `Option.none`.
* The engine's `Date` is modelled with an explicit fixed timezone-offset
  parameter `tz` (minutes, the value of `getTimezoneOffset()`), so
  `getTime()` of a local construction is `days * 86400000 + tz * 60000`.
  Daylight-saving transitions and the ±8.64e15 range clamp are outside the
  model.  Generic string parsing (`new Date(string)`) is modelled for the
  formats exercised by this code base: ECMA-262 date-only ISO forms
  `YYYY`, `YYYY-MM`, `YYYY-MM-DD` (interpreted as UTC midnight) and the
  engines' legacy slash forms `YYYY/M[M]` and `YYYY/M[M]/D[D]`
  (interpreted as local midnight); every other string is the invalid-date
  sentinel `none`.  Non-finite numeric literals (`Infinity`) and non-decimal
  radix prefixes are likewise outside the model.
-/

namespace ErpCore

/-! ## Characters and basic string utilities -/

def isDigitCh (c : Char) : Bool := 48 ≤ c.toNat ∧ c.toNat ≤ 57

def digitVal (c : Char) : Nat := c.toNat - 48

/-- JavaScript whitespace characters relevant to `trim` in this model. -/
def isWsCh (c : Char) : Bool :=
  c = ' ' ∨ c = '\t' ∨ c = '\n' ∨ c = '\r'

/-- `String.prototype.trim`. -/
def jsTrim (s : List Char) : List Char :=
  ((s.dropWhile isWsCh).reverse.dropWhile isWsCh).reverse

/-- `String.prototype.toLowerCase` (ASCII letters; CJK characters are fixed). -/
def lowerCh (c : Char) : Char :=
  if 'A' ≤ c ∧ c ≤ 'Z' then Char.ofNat (c.toNat + 32) else c

def jsToLower (s : List Char) : List Char := s.map lowerCh

def allDigits (s : List Char) : Bool := s.all isDigitCh

/-- Decimal value of a digit string (the `parseInt` of an all-digit string). -/
def toNatDigits (s : List Char) : Nat :=
  s.foldl (fun acc c => 10 * acc + digitVal c) 0

/-- Is `pat` a contiguous sublist of `s`?  (`String.prototype.includes`). -/
def containsSub (s pat : List Char) : Bool :=
  (List.range (s.length + 1)).any (fun i => (s.drop i).take pat.length = pat)

def containsCh (s : List Char) (c : Char) : Bool := s.any (fun x => x = c)

/-- The separator class of the cached split regex (dash or slash). -/
def isSepCh (c : Char) : Bool := c = '-' ∨ c = '/'

def sepFree (s : List Char) : Bool := s.all (fun c => ¬ isSepCh c)

/-- `String.prototype.split` on a character class: always returns at least
one part; splitting the empty string yields one empty part. -/
def splitBy (sep : Char → Bool) : List Char → List (List Char)
  | [] => [[]]
  | c :: rest =>
    if sep c then [] :: splitBy sep rest
    else
      match splitBy sep rest with
      | [] => [[c]]
      | p :: ps => (c :: p) :: ps

/-- `split(/[-\/]/)`. -/
def splitSep (s : List Char) : List (List Char) := splitBy isSepCh s

/-- `Array.prototype.join('/')`. -/
def joinSlash : List (List Char) → List Char
  | [] => []
  | [p] => p
  | p :: q :: ps => p ++ '/' :: joinSlash (q :: ps)

/-- Decimal rendering of a natural number (`String(n)` for small ints). -/
def natToChars (n : Nat) : List Char :=
  (Nat.toDigits 10 n)

/-- `String(v)` for an integer-valued JavaScript number. -/
def intToChars (n : Int) : List Char :=
  if n < 0 then '-' :: natToChars n.natAbs else natToChars n.natAbs

/-! ## JavaScript numeric string parsing (decimal fragment) -/

/-- Parse a nonempty digit run; returns value and rest. -/
def takeDigits (s : List Char) : List Char × List Char :=
  (s.takeWhile isDigitCh, s.dropWhile isDigitCh)

/-- Grammar `digits [. digits?] | . digits`, returning the value. -/
def parseDecCore (s : List Char) : Option (ℚ × List Char) :=
  let (ip, r1) := takeDigits s
  if ip = [] then
    match r1 with
    | '.' :: r2 =>
      let (fp, r3) := takeDigits r2
      if fp = [] then none
      else some ((toNatDigits fp : ℚ) / ((10 : ℚ) ^ fp.length), r3)
    | _ => none
  else
    match r1 with
    | '.' :: r2 =>
      let (fp, r3) := takeDigits r2
      some ((toNatDigits ip : ℚ) + (toNatDigits fp : ℚ) / ((10 : ℚ) ^ fp.length), r3)
    | _ => some ((toNatDigits ip : ℚ), r1)

/-- Optional exponent part `[eE][+-]?digits`; `none` when no exponent is
present, otherwise the scale factor and the rest of the input. -/
def parseExpPart (s : List Char) : Option (ℚ × List Char) :=
  match s with
  | 'e' :: r | 'E' :: r =>
    let (sgn, r1) : (Bool × List Char) :=
      match r with
      | '+' :: r2 => (true, r2)
      | '-' :: r2 => (false, r2)
      | _ => (true, r)
    let (ds, r2) := takeDigits r1
    if ds = [] then none
    else if sgn then some ((10 : ℚ) ^ toNatDigits ds, r2)
    else some (1 / (10 : ℚ) ^ toNatDigits ds, r2)
  | _ => none

/-- Signed decimal literal with optional exponent; returns value and rest. -/
def parseSignedDec (s : List Char) : Option (ℚ × List Char) :=
  let (sgn, r) : (Bool × List Char) :=
    match s with
    | '+' :: r1 => (true, r1)
    | '-' :: r1 => (false, r1)
    | _ => (true, s)
  match parseDecCore r with
  | none => none
  | some (v, r1) =>
    match parseExpPart r1 with
    | some (sc, r2) => some (if sgn then v * sc else -(v * sc), r2)
    | none => some (if sgn then v else -v, r1)

/-- `Number(string)`: trims, empty → 0, whole string must be a (decimal)
numeric literal, otherwise NaN (`none`). -/
def jsStrToNumber (s : List Char) : Option ℚ :=
  let t := jsTrim s
  if t = [] then some 0
  else
    match parseSignedDec t with
    | some (v, []) => some v
    | _ => none

/-- `parseFloat(string)`: trims leading whitespace, longest valid signed
decimal prefix, NaN (`none`) if no prefix parses. -/
def jsParseFloat (s : List Char) : Option ℚ :=
  match parseSignedDec (s.dropWhile isWsCh) with
  | some (v, _) => some v
  | none => none

/-- `parseInt(string)`: trims, optional sign, leading digit run. -/
def jsParseInt (s : List Char) : Option Int :=
  let t := s.dropWhile isWsCh
  let (sgn, r) : (Bool × List Char) :=
    match t with
    | '+' :: r1 => (true, r1)
    | '-' :: r1 => (false, r1)
    | _ => (true, t)
  let (ds, _) := takeDigits r
  if ds = [] then none
  else some (if sgn then (toNatDigits ds : Int) else -(toNatDigits ds : Int))

/-! ## Date arithmetic -/

/-- Days since the Unix epoch of the civil date `(y, m, d)` with `m ∈ [1,12]`
and an arbitrary integer day (day overflow/underflow rolls over, exactly as
ECMA-262 `MakeDay` does). Standard era-based civil-calendar computation. -/
def daysFromCivil (y m d : Int) : Int :=
  let yr := if m ≤ 2 then y - 1 else y
  let era := Int.fdiv yr 400
  let yoe := yr - era * 400
  let mp := Int.emod (m + 9) 12
  let doy := Int.fdiv (153 * mp + 2) 5 + d - 1
  let doe := yoe * 365 + Int.fdiv yoe 4 - Int.fdiv yoe 100 + doy
  era * 146097 + doe - 719468

/-- ECMA `MakeDay` for the `Date(year, month, day)` constructor: `month` is
zero-based and unbounded (rolls into the year), `day` unbounded. -/
def jsMakeDay (year month day : Int) : Int :=
  daysFromCivil (year + Int.fdiv month 12) (Int.emod month 12 + 1) day

/-- The `Date(y, ...)` constructor quirk: integer years 0–99 mean 1900+y. -/
def fixTwoDigitYear (y : Int) : Int :=
  if 0 ≤ y ∧ y ≤ 99 then y + 1900 else y

/-- `new Date(year, month, day).getTime()` under fixed offset `tz` minutes
(the value of `getTimezoneOffset()`; local time = UTC − tz). -/
def jsDateCtorMs (tz year month day : Int) : Int :=
  jsMakeDay (fixTwoDigitYear year) month day * 86400000 + tz * 60000

def isLeap (y : Int) : Bool :=
  (Int.emod y 4 = 0 ∧ Int.emod y 100 ≠ 0) ∨ Int.emod y 400 = 0

def daysInMonth (y m : Int) : Int :=
  if m = 2 then (if isLeap y then 29 else 28)
  else if m = 4 ∨ m = 6 ∨ m = 9 ∨ m = 11 then 30
  else 31

/-- Tail of an ISO date-only string after `YYYY-`: `MM` or `MM-DD`,
calendar-validated, per ECMA-262 (interpreted as UTC). Yields epoch days. -/
def isoTailDays (y : Int) (rest : List Char) : Option Int :=
  match splitSep rest with
  | [[m1, m2]] =>
    if isDigitCh m1 ∧ isDigitCh m2 then
      let m : Int := toNatDigits [m1, m2]
      if 1 ≤ m ∧ m ≤ 12 then some (daysFromCivil y m 1) else none
    else none
  | [[m1, m2], [d1, d2]] =>
    if isDigitCh m1 ∧ isDigitCh m2 ∧ isDigitCh d1 ∧ isDigitCh d2 then
      let m : Int := toNatDigits [m1, m2]
      let d : Int := toNatDigits [d1, d2]
      if 1 ≤ m ∧ m ≤ 12 ∧ 1 ≤ d ∧ d ≤ daysInMonth y m then
        some (daysFromCivil y m d)
      else none
    else none
  | _ => none

def isOneOrTwoDigits (p : List Char) : Bool :=
  (p.length = 1 ∨ p.length = 2) ∧ allDigits p

/-- Tail of a legacy slash date after `YYYY/`: `M[M]` or `M[M]/D[D]`;
month must be 1–12, day 1–31 with rollover (interpreted as local time).
Yields epoch days. -/
def slashTailDays (y : Int) (rest : List Char) : Option Int :=
  match splitSep rest with
  | [p] =>
    if isOneOrTwoDigits p then
      let m : Int := toNatDigits p
      if 1 ≤ m ∧ m ≤ 12 then some (daysFromCivil y m 1) else none
    else none
  | [p, q] =>
    if isOneOrTwoDigits p ∧ isOneOrTwoDigits q then
      let m : Int := toNatDigits p
      let d : Int := toNatDigits q
      if 1 ≤ m ∧ m ≤ 12 ∧ 1 ≤ d ∧ d ≤ 31 then some (daysFromCivil y m d)
      else none
    else none
  | _ => none

/-- `new Date(string)` / `Date.parse(string)` on an (already trimmed) string:
returns epoch days paired with a flag telling whether the result is local
time (`true`, needs the tz adjustment) or UTC (`false`). `none` is the
invalid-date sentinel NaN. -/
def jsDateParseRaw (s : List Char) : Option (Int × Bool) :=
  if s.length = 4 ∧ allDigits s then
    some (daysFromCivil (toNatDigits s) 1 1, false)
  else if 5 ≤ s.length ∧ allDigits (s.take 4) then
    match s.drop 4 with
    | '-' :: rest => (isoTailDays (toNatDigits (s.take 4)) rest).map (fun d => (d, false))
    | '/' :: rest => (slashTailDays (toNatDigits (s.take 4)) rest).map (fun d => (d, true))
    | _ => none
  else none

/-- `new Date(string).getTime()` under fixed offset `tz`. -/
def jsDateParseMs (tz : Int) (s : List Char) : Option Int :=
  (jsDateParseRaw s).map (fun p => if p.2 then p.1 * 86400000 + tz * 60000 else p.1 * 86400000)

/-- The cached regex `/^\d{8}$/`. -/
def regex8 (s : List Char) : Bool := s.length = 8 ∧ allDigits s

/-- The cached regex `/^(19|20)\d{2}(0[1-9]|1[0-2])$/` (YYYYMM). -/
def regex6 (s : List Char) : Bool :=
  s.length = 6 ∧ allDigits s ∧
    (s.take 2 = ['1', '9'] ∨ s.take 2 = ['2', '0']) ∧
    1 ≤ toNatDigits (s.drop 4) ∧ toNatDigits (s.drop 4) ≤ 12

/-- `parseDateSafe` from src/utils.ts.  Returns `some 0` for falsy input,
the local-midnight timestamp for the 8-digit `YYYYMMDD` and 6-digit
`YYYYMM` encodings, and otherwise delegates to generic date parsing
(`none` = NaN). -/
def parseDateSafe (tz : Int) (value : List Char) : Option Int :=
  if value = [] then some 0
  else
    let s := jsTrim value
    if regex8 s then
      some (jsDateCtorMs tz (toNatDigits (s.take 4))
        ((toNatDigits ((s.drop 4).take 2) : Int) - 1) (toNatDigits (s.drop 6)))
    else if regex6 s then
      some (jsDateCtorMs tz (toNatDigits (s.take 4))
        ((toNatDigits (s.drop 4) : Int) - 1) 1)
    else jsDateParseMs tz s

/-! ## Cells and rows

A row is an ordered association list from column name to scalar, mirroring a
JavaScript object (`Object.keys` order = list order; lookups take the first
binding).  `none` from a lookup is JavaScript `undefined`. -/

inductive CellValue where
  | str : List Char → CellValue
  | num : Int → CellValue
  | boolean : Bool → CellValue
  | nullv : CellValue
deriving DecidableEq

abbrev Row : Type := List (List Char × CellValue)

/-- `row[key]` (`undefined` when absent). -/
def lookupCell (r : Row) (k : List Char) : Option CellValue :=
  match r.find? (fun p => p.1 = k) with
  | some p => some p.2
  | none => none

/-- `row[key] = v`: replaces the value at every binding of `k` (JavaScript
objects have unique keys, where this coincides with updating the single
binding; keys are never added by the core, which only writes existing
columns). -/
def updateCell (r : Row) (k : List Char) (v : CellValue) : Row :=
  r.map (fun p => if p.1 = k then (p.1, v) else p)

def rowKeys (r : Row) : List (List Char) := r.map Prod.fst

/-- JavaScript truthiness of a possibly-absent cell value. -/
def cellTruthy : Option CellValue → Bool
  | none => false
  | some .nullv => false
  | some (.str s) => s ≠ []
  | some (.num n) => n ≠ 0
  | some (.boolean b) => b

/-- `String(v)` for a present cell value. -/
def cellToChars : CellValue → List Char
  | .str s => s
  | .num n => intToChars n
  | .boolean true => ['t', 'r', 'u', 'e']
  | .boolean false => ['f', 'a', 'l', 's', 'e']
  | .nullv => ['n', 'u', 'l', 'l']

/-- `String(v)` where `v` may be `undefined`. -/
def cellOptToChars : Option CellValue → List Char
  | none => ['u', 'n', 'd', 'e', 'f', 'i', 'n', 'e', 'd']
  | some v => cellToChars v

/-- `String(row[key] || '')` as in the cleaner's year-fix loop: falsy values
collapse to the empty string. -/
def cellStrOrEmpty (r : Row) (k : List Char) : List Char :=
  if cellTruthy (lookupCell r k) then cellToChars ((lookupCell r k).getD .nullv)
  else []

/-- `Number(v)` on a raw scalar (`ToNumber`); `none` is NaN. -/
def cellToNumber : CellValue → Option ℚ
  | .str s => jsStrToNumber s
  | .num n => some (n : ℚ)
  | .boolean true => some 1
  | .boolean false => some 0
  | .nullv => some 0

/-! ## detectColumnType -/

inductive ColType where
  | date | number | string
deriving DecidableEq

/-- The identifier keyword list from `detectColumnType`. -/
def stringKeywords : List (List Char) :=
  [['i', 'd'], ['n', 'o'], ['c', 'o', 'd', 'e'],
   "單號".toList, "編號".toList, "料號".toList, "工號".toList,
   "客代".toList, "廠商".toList, "品號".toList, "規格".toList]

/-- A sampled value: present and neither null nor the empty string. -/
def sampleVal (r : Row) (column : List Char) : Option CellValue :=
  match lookupCell r column with
  | none => none
  | some .nullv => none
  | some (.str s) => if s = [] then none else some (.str s)
  | some v => some v

/-- `!isNaN(Number(val)) && strVal !== ''`. -/
def numberSampleTest (v : CellValue) : Bool :=
  (cellToNumber v).isSome ∧ jsTrim (cellToChars v) ≠ []

/-- The date test applied to each sampled value. -/
def dateSampleTest (v : CellValue) : Bool :=
  let s := jsTrim (cellToChars v)
  regex8 s ∨ regex6 s ∨
    ((jsDateParseRaw s).isSome ∧ (containsCh s '-' ∨ containsCh s '/'))

/-- `detectColumnType` from src/utils.ts. -/
def detectColumnType (data : List Row) (column : List Char) : ColType :=
  let colLower := jsToLower column
  if stringKeywords.any (fun kw => containsSub colLower kw) then .string
  else
    let samples := (data.filterMap (fun r => sampleVal r column)).take 100
    let sc := samples.length
    let dc := samples.countP (fun v => dateSampleTest v)
    let nc := samples.countP (fun v => numberSampleTest v)
    if 0 < sc ∧ 4 * sc < 5 * dc then .date
    else if 0 < sc ∧ 9 * sc < 10 * nc then .number
    else .string

/-! ## cleanAndEnrichData -/

/-- `d2 < d1` on possibly-NaN timestamps (any comparison with NaN is false). -/
def jsLt : Option Int → Option Int → Bool
  | some a, some b => a < b
  | _, _ => false

/-- `t > 0` on a possibly-NaN timestamp. -/
def jsPos : Option Int → Bool
  | some a => 0 < a
  | none => false

/-- `Math.ceil(a / b)` for integer `a` and positive integer `b` (exact on the
magnitudes produced here; see the header note on floats). -/
def ceilDiv (a b : Int) : Int := -(Int.fdiv (-a) b)

def docDateKeywords : List (List Char) :=
  ["單據日期".toList, "訂單日期".toList, "開工日".toList,
   "Date".toList, "Order Date".toList]

def predictedKeywords : List (List Char) :=
  ["預計".toList, "預交".toList, "Planned".toList, "Target".toList,
   "Delivery".toList]

def actualKeywords : List (List Char) :=
  ["實際".toList, "完工日".toList, "Actual".toList, "Finish".toList]

def diffKeywords : List (List Char) := ["差異".toList, "Diff".toList]

def findDocDateCol (headers : List (List Char)) : Option (List Char) :=
  headers.find? (fun h => docDateKeywords.any (fun k => containsSub h k))

def findPredictedCol (headers : List (List Char)) : Option (List Char) :=
  headers.find? (fun h =>
    predictedKeywords.any (fun k => containsSub h k) ∧
      (containsSub h "日".toList ∨ containsSub h "Date".toList))

def findActualCol (headers : List (List Char)) : Option (List Char) :=
  headers.find? (fun h => actualKeywords.any (fun k => containsSub h k))

def findDiffCol (headers : List (List Char)) : Option (List Char) :=
  headers.find? (fun h => diffKeywords.any (fun k => containsSub h k))

/-- The year substitution shared by the year fix and the logic fix: an
8-character value gets its first four characters replaced, anything else is
split on dash/slash, the first part replaced and the parts rejoined with
slashes. -/
def replaceYearVal (y v : List Char) : List Char :=
  if v.length = 8 then y ++ v.drop 4 else joinSlash (y :: (splitSep v).tail)

/-- The reference year chosen by the year-fix step: the document-date cell's
leading year when that cell is truthy and has a recognizable shape
(8 characters, or containing a slash, or containing a dash), otherwise the
constant `'2025'`.  Note: the slash and dash cases split on that single
character only. -/
def chooseYear1 (docCell : Option CellValue) : List Char :=
  if cellTruthy docCell then
    let docVal := cellToChars (docCell.getD .nullv)
    if docVal.length = 8 then docVal.take 4
    else if containsCh docVal '/' then (splitBy (fun c => c = '/') docVal).headD []
    else if containsCh docVal '-' then (splitBy (fun c => c = '-') docVal).headD []
    else "2025".toList
  else "2025".toList

/-- The document year extraction of the logic-fix step: first four characters
of an 8-character value, else the first dash/slash-separated part. -/
def extractYear2 (docVal : List Char) : List Char :=
  if docVal.length = 8 then docVal.take 4 else (splitSep docVal).headD []

/-- Does the year-fix condition fire on this cell string?  (8 digits, or at
least three dash/slash-separated parts, with a leading year in (0, 2000)). -/
def yearFixYear (val : List Char) : Option Int :=
  if val.length = 8 ∧ allDigits val then some (toNatDigits (val.take 4))
  else if containsCh val '/' ∨ containsCh val '-' then
    if 3 ≤ (splitSep val).length then jsParseInt ((splitSep val).headD [])
    else none
  else none

def yearFixTriggers (val : List Char) : Bool :=
  match yearFixYear val with
  | some y => 0 < y ∧ y < 2000
  | none => false

/-- Step 1 of the cleaner, for a single key of a row. -/
def step1Key (docCol : Option (List Char)) (r : Row) (k : List Char) : Row :=
  let val := cellStrOrEmpty r k
  if val = [] then r
  else if yearFixTriggers val then
    let cy :=
      match docCol with
      | some dk => chooseYear1 (lookupCell r dk)
      | none => "2025".toList
    updateCell r k (.str (replaceYearVal cy val))
  else r

/-- Step 1 (universal year fix) over all header keys, left to right. -/
def step1Row (docCol : Option (List Char)) (headers : List (List Char))
    (r : Row) : Row :=
  headers.foldl (fun acc k => step1Key docCol acc k) r

/-- Step 2 (logic fix: predicted date earlier than document date). -/
def step2Row (tz : Int) (docCol predCol : Option (List Char)) (r : Row) : Row :=
  match docCol, predCol with
  | some dk, some pk =>
    if cellTruthy (lookupCell r dk) ∧ cellTruthy (lookupCell r pk) then
      let docVal := cellOptToChars (lookupCell r dk)
      let predVal := cellOptToChars (lookupCell r pk)
      if jsLt (parseDateSafe tz predVal) (parseDateSafe tz docVal) then
        updateCell r pk (.str (replaceYearVal (extractYear2 docVal) predVal))
      else r
    else r
  | _, _ => r

/-- Step 3 (recompute the difference-days column). -/
def step3Row (tz : Int) (predCol actualCol diffCol : Option (List Char))
    (r : Row) : Row :=
  match predCol, actualCol, diffCol with
  | some pk, some ak, some fk =>
    if cellTruthy (lookupCell r pk) ∧ cellTruthy (lookupCell r ak) then
      match parseDateSafe tz (cellOptToChars (lookupCell r pk)),
            parseDateSafe tz (cellOptToChars (lookupCell r ak)) with
      | some dp, some da =>
        if 0 < dp ∧ 0 < da then
          updateCell r fk (.num (ceilDiv (da - dp) 86400000))
        else r
      | _, _ => r
    else r
  | _, _, _ => r

/-- One full cleaning pass over a single row. -/
def cleanRow (tz : Int) (headers : List (List Char))
    (docCol predCol actualCol diffCol : Option (List Char)) (r : Row) : Row :=
  step3Row tz predCol actualCol diffCol
    (step2Row tz docCol predCol (step1Row docCol headers r))

/-- `cleanAndEnrichData` from src/utils.ts: role discovery over the first
row's keys, then the three repair steps applied to every row. -/
def cleanAndEnrichData (tz : Int) (data : List Row) : List Row :=
  match data with
  | [] => []
  | r0 :: _ =>
    let headers := rowKeys r0
    let docCol := findDocDateCol headers
    let predCol := findPredictedCol headers
    let actualCol := findActualCol headers
    let diffCol := findDiffCol headers
    data.map (fun r => cleanRow tz headers docCol predCol actualCol diffCol r)

/-! ## getDatasetStats -/

/-- `Math.round`: half rounds toward +∞. -/
def jsRound (x : ℚ) : Int := ⌊x + 1 / 2⌋

/-- `Math.round(x * 100) / 100`. -/
def round2 (x : ℚ) : ℚ := (jsRound (x * 100) : ℚ) / 100

/-- Civil date from days since epoch (inverse of `daysFromCivil`). -/
def civilFromDays (z0 : Int) : Int × Int × Int :=
  let z := z0 + 719468
  let era := Int.fdiv z 146097
  let doe := z - era * 146097
  let yoe := Int.fdiv (doe - Int.fdiv doe 1460 + Int.fdiv doe 36524 - Int.fdiv doe 146096) 365
  let y := yoe + era * 400
  let doy := doe - (365 * yoe + Int.fdiv yoe 4 - Int.fdiv yoe 100)
  let mp := Int.fdiv (5 * doy + 2) 153
  let d := doy - Int.fdiv (153 * mp + 2) 5 + 1
  let m := mp + (if mp < 10 then 3 else -9)
  (y + (if m ≤ 2 then 1 else 0), m, d)

/-- `new Date(ts).toLocaleDateString()` under the fixed offset, rendered in
the en-US `M/D/YYYY` shape. -/
def formatLocalDate (tz ts : Int) : List Char :=
  let c := civilFromDays (Int.fdiv (ts - tz * 60000) 86400000)
  intToChars c.2.1 ++ '/' :: intToChars c.2.2 ++ '/' :: intToChars c.1

structure NumStat where
  sum : ℚ
  avg : ℚ
  min : ℚ
  max : ℚ
deriving DecidableEq

structure DateRange where
  start : List Char
  stop : List Char  -- the source field is named `end`, a Lean keyword
  column : List Char
deriving DecidableEq

structure DatasetStats where
  rowCount : Nat
  dateRange : DateRange
  numericStats : List (List Char × NumStat)
deriving DecidableEq

/-- The parsed float of one cell of a column (`parseFloat(String(row[col]))`),
`none` when NaN and hence skipped by the accumulation. -/
def colCellFloat (r : Row) (c : List Char) : Option ℚ :=
  jsParseFloat (cellOptToChars (lookupCell r c))

def colVals (data : List Row) (c : List Char) : List ℚ :=
  data.filterMap (fun r => colCellFloat r c)

/-- The raw (pre-rounding) running sum of a numeric column. -/
def colRawSum (data : List Row) (c : List Char) : ℚ :=
  (colVals data c).foldl (fun a v => a + v) 0

/-- Running minimum seeded at +∞ (`none` = never updated). -/
def colMin (data : List Row) (c : List Char) : Option ℚ :=
  (colVals data c).foldl
    (fun a v => match a with
      | none => some v
      | some m => some (if v < m then v else m)) none

def colMax (data : List Row) (c : List Char) : Option ℚ :=
  (colVals data c).foldl
    (fun a v => match a with
      | none => some v
      | some m => some (if m < v then v else m)) none

def statsDateKeyTest (h : List Char) : Bool :=
  containsSub (jsToLower h) "date".toList ∨ containsSub h "日期".toList ∨
    containsSub h "時間".toList

/-- Positive parsed timestamps of the date column, in dataset order. -/
def dateTsList (tz : Int) (data : List Row) (dk : List Char) : List Int :=
  data.filterMap (fun r =>
    match parseDateSafe tz (cellOptToChars (lookupCell r dk)) with
    | some t => if 0 < t then some t else none
    | none => none)

def intsMin (l : List Int) : Option Int :=
  l.foldl (fun a v => match a with
    | none => some v
    | some m => some (if v < m then v else m)) none

def intsMax (l : List Int) : Option Int :=
  l.foldl (fun a v => match a with
    | none => some v
    | some m => some (if m < v then v else m)) none

/-- The numeric columns of the dataset: headers of the first row whose type,
sampled from the first 50 rows, is `number`. -/
def numericColsOf (data : List Row) : List (List Char) :=
  match data with
  | [] => []
  | r0 :: _ =>
    (rowKeys r0).filter (fun h => detectColumnType (data.take 50) h = ColType.number)

/-- The finalized per-column record: min/max default to 0 when never updated,
`avg` divides the raw sum by the total row count, sum and avg are rounded to
two decimals. -/
def finalizeNumStat (data : List Row) (c : List Char) : NumStat :=
  { sum := round2 (colRawSum data c)
    avg := round2 (colRawSum data c / (data.length : ℚ))
    min := (colMin data c).getD 0
    max := (colMax data c).getD 0 }

/-- `getDatasetStats` from src/utils.ts. -/
def getDatasetStats (tz : Int) (data : List Row) : DatasetStats :=
  match data with
  | [] => { rowCount := 0, dateRange := ⟨[], [], []⟩, numericStats := [] }
  | r0 :: _ =>
    let headers := rowKeys r0
    let dateCol := headers.find? statsDateKeyTest
    let numericCols := numericColsOf data
    let dr : DateRange :=
      match dateCol with
      | some dk =>
        match intsMin (dateTsList tz data dk), intsMax (dateTsList tz data dk) with
        | some mn, some mx => ⟨formatLocalDate tz mn, formatLocalDate tz mx, dk⟩
        | _, _ => ⟨[], [], []⟩
      | none => ⟨[], [], []⟩
    { rowCount := data.length
      dateRange := dr
      numericStats := numericCols.map (fun c => (c, finalizeNumStat data c)) }

/-! ## getSmartSample -/

/-- `getSmartSample` from src/utils.ts.  `rng` is the random oracle: draw `i`
of the middle section is `rng i % width + middleStart`, matching
`Math.floor(Math.random() * width) + middleStart` for an arbitrary random
stream.  `Math.floor(limit * 0.2)` equals `limit / 5` in natural-number
division for every representable integer limit (the float product of an
integer with the literal 0.2 always floors to the exact quotient). -/
def getSmartSample (rng : Nat → Nat) (data : List Row) (limit : Nat) : List Row :=
  if data.length ≤ limit then data
  else
    let headCount := limit / 5
    let tailCount := limit / 5
    let randomCount := limit - headCount - tailCount
    let headL := data.take headCount
    let tailL := data.drop (data.length - tailCount)
    let middleStart := headCount
    let middleEnd := data.length - tailCount
    let randoms :=
      if middleStart < middleEnd then
        (List.range randomCount).map
          (fun i => data.getD (rng i % (middleEnd - middleStart) + middleStart) [])
      else []
    headL ++ randoms ++ tailL

/-! ## aggregateData -/

inductive AggMode where
  | sum | count | average
deriving DecidableEq

def averageTokens : List (List Char) :=
  ["rate".toList, "percent".toList, "avg".toList, "yield".toList,
   "率".toList, "平均".toList, "占比".toList, "達成".toList]

def countTokens : List (List Char) :=
  ["id".toList, "no".toList, "code".toList,
   "號".toList, "單".toList, "代碼".toList]

/-- Reduction-mode selection from the value column's name, with the
downgrade of `sum` to `count` when the first non-null value is a
non-numeric string. -/
def aggMode (data : List Row) (dataKey : List Char) : AggMode :=
  let keyLower := jsToLower dataKey
  if averageTokens.any (fun t => containsSub keyLower t) then .average
  else if countTokens.any (fun t => containsSub keyLower t) then .count
  else
    match data.find? (fun r =>
      (lookupCell r dataKey).isSome ∧ lookupCell r dataKey ≠ some CellValue.nullv) with
    | some r =>
      match lookupCell r dataKey with
      | some (.str s) => if (jsStrToNumber s).isNone then .count else .sum
      | _ => .sum
    | none => .sum

/-- Per-group accumulator: running sum and count, keyed by the stringified
category value, in first-appearance order (JavaScript `Map` semantics). -/
def addTally (m : List (List Char × (ℚ × Nat))) (key : List Char) (v : ℚ) :
    List (List Char × (ℚ × Nat)) :=
  if (m.find? (fun p => p.1 = key)).isSome then
    m.map (fun p => if p.1 = key then (p.1, (p.2.1 + v, p.2.2 + 1)) else p)
  else m ++ [(key, (v, 1))]

def tallyOf (data : List Row) (xAxisKey dataKey : List Char) (mode : AggMode) :
    List (List Char × (ℚ × Nat)) :=
  data.foldl (fun m r =>
    match lookupCell r xAxisKey with
    | none => m
    | some .nullv => m
    | some xv =>
      let numVal : ℚ :=
        if mode = .count then 1
        else (jsParseFloat (cellOptToChars (lookupCell r dataKey))).getD 0
      addTally m (cellToChars xv) numVal) []

/-- One chart point (the dynamic `[xAxisKey]`/`[dataKey]` fields of the
source object are aliases of `name`/`value`). -/
structure AggPoint where
  name : List Char
  value : ℚ
deriving DecidableEq

def pointsOf (data : List Row) (xAxisKey dataKey : List Char) (mode : AggMode) :
    List AggPoint :=
  (tallyOf data xAxisKey dataKey mode).map (fun p =>
    { name := p.1
      value := if mode = .average ∧ 0 < p.2.2 then p.2.1 / (p.2.2 : ℚ) else p.2.1 })

/-- Stable insertion sort parameterized by "keep `x` no later than `y`",
the JavaScript `comparator(x, y) <= 0`. -/
def insertLe {α : Type} (le : α → α → Bool) (x : α) : List α → List α
  | [] => [x]
  | y :: ys => if le x y then x :: y :: ys else y :: insertLe le x ys

def sortByLe {α : Type} (le : α → α → Bool) : List α → List α
  | [] => []
  | x :: xs => insertLe le x (sortByLe le xs)

/-- The sort key of the date branch: `parseDateSafe(key) || key` (a falsy
parse — 0 or NaN — falls back to the raw string). -/
inductive DKey where
  | ts : Int → DKey
  | strk : List Char → DKey

def dateKeyOf (tz : Int) (s : List Char) : DKey :=
  match parseDateSafe tz s with
  | some t => if t = 0 then .strk s else .ts t
  | none => .strk s

/-- JavaScript string `<` (lexicographic by code unit). -/
def lexLt : List Char → List Char → Bool
  | [], [] => false
  | [], _ :: _ => true
  | _ :: _, [] => false
  | a :: as_, b :: bs => if a.toNat < b.toNat then true
      else if b.toNat < a.toNat then false else lexLt as_ bs

/-- JavaScript `>` on a sort key pair (mixed number/string comparison
converts the string with `ToNumber`; NaN makes the comparison false). -/
def dkGt : DKey → DKey → Bool
  | .ts a, .ts b => b < a
  | .strk a, .strk b => lexLt b a
  | .ts a, .strk b =>
    match jsStrToNumber b with
    | some q => q < (a : ℚ)
    | none => false
  | .strk a, .ts b =>
    match jsStrToNumber a with
    | some q => (b : ℚ) < q
    | none => false

def dkLt (a b : DKey) : Bool := dkGt b a

/-- `aggregateData` from src/utils.ts. -/
def aggregateData (tz : Int) (data : List Row) (xAxisKey dataKey : List Char) :
    List AggPoint :=
  let mode := aggMode data dataKey
  let result := pointsOf data xAxisKey dataKey mode
  let xColType := detectColumnType (data.take 20) xAxisKey
  if xColType = ColType.date ∨ containsSub (jsToLower xAxisKey) "date".toList ∨
      containsSub (jsToLower xAxisKey) "日".toList then
    sortByLe (fun a b => ¬ dkGt (dateKeyOf tz a.name) (dateKeyOf tz b.name))
      ((sortByLe (fun a b => ¬ dkLt (dateKeyOf tz a.name) (dateKeyOf tz b.name))
          result).take 12)
  else
    (sortByLe (fun a b => b.value ≤ a.value) result).take 12

/-! ## General lemmas -/

theorem length_insertLe {α : Type} (le : α → α → Bool) (x : α) :
    ∀ l : List α, (insertLe le x l).length = l.length + 1 := by
  intro l
  induction l with
  | nil => rfl
  | cons y ys ih =>
    simp only [insertLe]
    by_cases h : le x y
    · simp [h]
    · simp [h, ih]

theorem length_sortByLe {α : Type} (le : α → α → Bool) :
    ∀ l : List α, (sortByLe le l).length = l.length := by
  intro l
  induction l with
  | nil => rfl
  | cons x xs ih => simp [sortByLe, length_insertLe, ih]

/-! ## C1: aggregator output is capped at 12 entries -/

/-- C1.  For every dataset `D` and every pair of column names `x`, `y`, the
list returned by `aggregateData(D, x, y)` has length at most 12, regardless
of how many distinct category values appear in `D`: both the date-like and
the top-N orderings truncate with `take 12`, and the final chronological
re-sort of the date branch preserves length. -/
theorem erpC1_aggregate_length_le_12 (tz : Int) (data : List Row)
    (xAxisKey dataKey : List Char) :
    (aggregateData tz data xAxisKey dataKey).length ≤ 12 := by
  unfold aggregateData
  by_cases h : (detectColumnType (data.take 20) xAxisKey = ColType.date ∨
      containsSub (jsToLower xAxisKey) "date".toList ∨
      containsSub (jsToLower xAxisKey) "日".toList)
  · simp only [h, if_pos, length_sortByLe, List.length_take]
    exact min_le_left _ _
  · simp only [h, if_neg, List.length_take, not_false_iff]
    exact min_le_left _ _

/-! ## C3: sampler length and identity on small datasets -/

/-- C3.  `getSmartSample(D, limit)` returns exactly `min(D.length, limit)`
rows for every positive limit, and returns `D` itself (same rows, same
order) whenever `D.length ≤ limit`. -/
theorem erpC3_sample_length (rng : Nat → Nat) (data : List Row) (limit : Nat)
    (hpos : 0 < limit) :
    (getSmartSample rng data limit).length = min data.length limit ∧
      (data.length ≤ limit → getSmartSample rng data limit = data) := by
  unfold getSmartSample
  by_cases h : data.length ≤ limit
  · simp [h, Nat.min_eq_left h]
  · have hlt : limit < data.length := Nat.lt_of_not_le h
    have h5 : limit / 5 + limit / 5 ≤ limit := by omega
    have hmid : limit / 5 < data.length - limit / 5 := by omega
    constructor
    · simp only [h, if_neg, not_false_iff, hmid, if_pos, List.length_append,
        List.length_take, List.length_map, List.length_range, List.length_drop]
      have : min (limit / 5) data.length = limit / 5 := by omega
      rw [this]
      omega
    · intro hle
      omega

/-- Closed instance of the sampler theorem at a three-row dataset with
limit 2, discharging the positivity hypothesis. -/
theorem erpC3_sample_length_witness :
    (getSmartSample (fun _ => 0)
        [[("a".toList, CellValue.num 1)], [("a".toList, CellValue.num 2)],
         [("a".toList, CellValue.num 3)]] 2).length =
      min (List.length
        [[("a".toList, CellValue.num 1)], [("a".toList, CellValue.num 2)],
         [("a".toList, CellValue.num 3)]]) 2 ∧
      (List.length
          [[("a".toList, CellValue.num 1)], [("a".toList, CellValue.num 2)],
           [("a".toList, CellValue.num 3)]] ≤ 2 →
        getSmartSample (fun _ => 0)
          [[("a".toList, CellValue.num 1)], [("a".toList, CellValue.num 2)],
           [("a".toList, CellValue.num 3)]] 2 =
        [[("a".toList, CellValue.num 1)], [("a".toList, CellValue.num 2)],
         [("a".toList, CellValue.num 3)]]) :=
  erpC3_sample_length (fun _ => 0) _ 2 (by decide)

/-! ## C8: identifier-keyword columns always classify as string -/

/-- The keyword family named by the claim (id, no, code, and the CJK
identifier keyword 編號); each is in the source's `stringKeywords` list. -/
def claimIdKeywords : List (List Char) :=
  [['i', 'd'], ['n', 'o'], ['c', 'o', 'd', 'e'], "編號".toList]

/-- C8.  A column whose (lowercased) name contains an identifier-like
keyword — id, no, code, or the CJK 編號 — classifies as `string` for every
dataset, regardless of the sampled values; in particular a column named
訂單編號 with a purely numeric value classifies as `string`. -/
theorem erpC8_id_keywords_force_string (data : List Row) (column : List Char)
    (h : claimIdKeywords.any
        (fun kw => containsSub (jsToLower column) kw) = true) :
    detectColumnType data column = ColType.string ∧
      detectColumnType [[("訂單編號".toList, CellValue.num 12345)]]
        "訂單編號".toList = ColType.string := by
  refine ⟨?_, by decide⟩
  rcases List.any_eq_true.mp h with ⟨kw, hmem, hsub⟩
  have hmem2 : kw ∈ stringKeywords := by
    simp only [claimIdKeywords, List.mem_cons, List.not_mem_nil, or_false] at hmem
    rcases hmem with rfl | rfl | rfl | rfl <;> decide
  have hany : stringKeywords.any
      (fun kw => containsSub (jsToLower column) kw) = true :=
    List.any_eq_true.mpr ⟨kw, hmem2, hsub⟩
  simp [detectColumnType, hany]

/-- Closed instance of the C8 theorem at the 訂單編號 column. -/
theorem erpC8_id_keywords_force_string_witness :
    detectColumnType [[("訂單編號".toList, CellValue.num 9)]]
        "訂單編號".toList = ColType.string ∧
      detectColumnType [[("訂單編號".toList, CellValue.num 12345)]]
        "訂單編號".toList = ColType.string :=
  erpC8_id_keywords_force_string _ _ (by decide)

/-! ## C2: behaviour on unparseable input (corrected)

The claim states that every unparseable input yields 0.  The code only
returns 0 for *falsy* (empty) input; a non-empty unparseable string falls
through to `new Date(str).getTime()`, which is NaN — modelled `none` — and
NaN is not 0. -/

/-- C2 counterexample: `parseDateSafe('not-a-date')` is the NaN sentinel
(`none`), not 0, refuting "returns 0 for every unparseable input". -/
theorem erpC2_counterexample :
    parseDateSafe 0 "not-a-date".toList = none ∧
      parseDateSafe 0 "not-a-date".toList ≠ some 0 := by
  decide

theorem toNatDigits_lt_base : ∀ (s : List Char) (acc : Nat),
    allDigits s = true →
    s.foldl (fun a c => 10 * a + digitVal c) acc < (acc + 1) * 10 ^ s.length := by
  intro s
  induction s with
  | nil => intro acc _; simp
  | cons c r ih =>
    intro acc h
    simp only [allDigits, List.all_cons, Bool.and_eq_true] at h
    have hc : digitVal c ≤ 9 := by
      have h1 := h.1
      simp only [isDigitCh, Bool.decide_and, Bool.and_eq_true,
        decide_eq_true_eq] at h1
      simp only [digitVal]
      omega
    have := ih (10 * acc + digitVal c) (by
      simp only [allDigits]
      exact h.2)
    calc (c :: r).foldl (fun a c => 10 * a + digitVal c) acc
        = r.foldl (fun a c => 10 * a + digitVal c) (10 * acc + digitVal c) := rfl
      _ < (10 * acc + digitVal c + 1) * 10 ^ r.length := this
      _ ≤ (acc + 1) * 10 ^ (c :: r).length := by
          simp only [List.length_cons, pow_succ]
          have hp : 0 < 10 ^ r.length := pow_pos (by norm_num) r.length
          nlinarith

theorem toNatDigits_lt (s : List Char) (h : allDigits s = true) :
    toNatDigits s < 10 ^ s.length := by
  have := toNatDigits_lt_base s 0 h
  simpa [toNatDigits] using this

theorem isWsCh_eq_false_of_digit {c : Char} (h : isDigitCh c = true) :
    isWsCh c = false := by
  simp only [isDigitCh, Bool.decide_and, Bool.and_eq_true, decide_eq_true_eq] at h
  simp only [isWsCh, decide_eq_false_iff_not]
  intro hc
  rcases hc with rfl | rfl | rfl | rfl <;> exact absurd h (by decide)

theorem dropWhile_eq_self_of_all {p : Char → Bool} :
    ∀ s : List Char, (∀ c ∈ s, p c = false) → s.dropWhile p = s := by
  intro s h
  cases s with
  | nil => rfl
  | cons c r => simp [List.dropWhile_cons, h c (by simp)]

theorem jsTrim_eq_self_of_allDigits (s : List Char) (h : allDigits s = true) :
    jsTrim s = s := by
  have hws : ∀ c ∈ s, isWsCh c = false := by
    intro c hc
    exact isWsCh_eq_false_of_digit (by
      simp only [allDigits, List.all_eq_true] at h
      exact h c hc)
  unfold jsTrim
  rw [dropWhile_eq_self_of_all s hws]
  rw [dropWhile_eq_self_of_all s.reverse (by
    intro c hc
    exact hws c (List.mem_reverse.mp hc))]
  exact List.reverse_reverse s

theorem allDigits_take (s : List Char) (n : Nat) (h : allDigits s = true) :
    allDigits (s.take n) = true := by
  simp only [allDigits, List.all_eq_true] at h ⊢
  exact fun c hc => h c (List.take_subset n s hc)

theorem allDigits_drop (s : List Char) (n : Nat) (h : allDigits s = true) :
    allDigits (s.drop n) = true := by
  simp only [allDigits, List.all_eq_true] at h ⊢
  exact fun c hc => h c (List.drop_subset n s hc)

theorem fdiv_ediv_4 (a : Int) : Int.fdiv a 4 = a / 4 :=
  Int.fdiv_eq_ediv a (by norm_num)

theorem fdiv_ediv_5 (a : Int) : Int.fdiv a 5 = a / 5 :=
  Int.fdiv_eq_ediv a (by norm_num)

theorem fdiv_ediv_12 (a : Int) : Int.fdiv a 12 = a / 12 :=
  Int.fdiv_eq_ediv a (by norm_num)

theorem fdiv_ediv_100 (a : Int) : Int.fdiv a 100 = a / 100 :=
  Int.fdiv_eq_ediv a (by norm_num)

theorem fdiv_ediv_400 (a : Int) : Int.fdiv a 400 = a / 400 :=
  Int.fdiv_eq_ediv a (by norm_num)

/-- From November 30, 1970 (day 333) onward, `daysFromCivil` stays
at least 333, for any nonnegative day-of-month argument. -/
theorem daysFromCivil_lb (y m d : Int) (h1 : 1970 ≤ y)
    (h2 : 1 ≤ m) (h3 : m ≤ 12) (h4 : 0 ≤ d) (h5 : y = 1970 → m = 12) :
    333 ≤ daysFromCivil y m d := by
  interval_cases m <;>
    (unfold daysFromCivil
     simp only [fdiv_ediv_4, fdiv_ediv_5, fdiv_ediv_100, fdiv_ediv_400]
     norm_num
     omega)

/-- Positivity of the local-midnight timestamp for years ≥ 1971, even with
the constructor's month/day rollover and any real-world timezone offset. -/
theorem jsMakeDay_ms_pos (tz Y M D : Int) (h1 : 1971 ≤ Y) (h2 : Y ≤ 9999)
    (h3 : -1 ≤ M) (h4 : M ≤ 98) (h5 : 0 ≤ D) (_h6 : D ≤ 99)
    (htz1 : -840 ≤ tz) (htz2 : tz ≤ 840) :
    0 < jsMakeDay Y M D * 86400000 + tz * 60000 := by
  have hq : Int.fdiv M 12 = M / 12 := fdiv_ediv_12 M
  have hdays : 333 ≤ jsMakeDay Y M D := by
    unfold jsMakeDay
    apply daysFromCivil_lb
    · omega
    · have : Int.emod M 12 = M % 12 := rfl
      omega
    · have : Int.emod M 12 = M % 12 := rfl
      omega
    · exact h5
    · intro hy
      have : Int.emod M 12 = M % 12 := rfl
      omega
  omega

/-- A non-empty string that matches neither compact digit pattern and fails
generic date parsing makes `parseDateSafe` produce the NaN sentinel. -/
theorem parseDateSafe_none_of_unparseable (tz : Int) (v : List Char)
    (h1 : v ≠ []) (h2 : regex8 (jsTrim v) = false)
    (h3 : regex6 (jsTrim v) = false)
    (h4 : jsDateParseRaw (jsTrim v) = none) :
    parseDateSafe tz v = none := by
  simp [parseDateSafe, jsDateParseMs, h1, h2, h3, h4]

/-- C2, amended.  `parseDateSafe` returns 0 only for *falsy* (empty) input;
a non-empty unparseable string yields the NaN sentinel (modelled `none`),
not 0.  Parseable 8-digit dates of year ≥ 1971 yield strictly positive
millisecond timestamps for every real-world timezone offset. -/
theorem erpC2_parse_failure_amended (tz : Int) (s : List Char)
    (h8 : regex8 s = true) (hy : 1971 ≤ toNatDigits (s.take 4))
    (htz1 : -840 ≤ tz) (htz2 : tz ≤ 840) :
    parseDateSafe tz [] = some 0 ∧
      parseDateSafe tz "not-a-date".toList = none ∧
      ∃ t, parseDateSafe tz s = some t ∧ 0 < t := by
  refine ⟨rfl, ?_, ?_⟩
  · exact parseDateSafe_none_of_unparseable tz _ (by decide) (by decide)
      (by decide) (by decide)
  · have hlen : s.length = 8 := by
      simp only [regex8, Bool.decide_and, Bool.and_eq_true, decide_eq_true_eq] at h8
      exact h8.1
    have hdig : allDigits s = true := by
      simp only [regex8, Bool.decide_and, Bool.and_eq_true, decide_eq_true_eq] at h8
      exact h8.2
    have hne : s ≠ [] := by
      intro h
      rw [h] at hlen
      simp at hlen
    have htrim : jsTrim s = s := jsTrim_eq_self_of_allDigits s hdig
    have hY2 : toNatDigits (s.take 4) < 10000 := by
      have := toNatDigits_lt (s.take 4) (allDigits_take s 4 hdig)
      rw [List.length_take, hlen] at this
      simpa using this
    have hM : toNatDigits ((s.drop 4).take 2) < 100 := by
      have := toNatDigits_lt ((s.drop 4).take 2)
        (allDigits_take _ 2 (allDigits_drop s 4 hdig))
      rw [List.length_take, List.length_drop, hlen] at this
      simpa using this
    have hD : toNatDigits (s.drop 6) < 100 := by
      have := toNatDigits_lt (s.drop 6) (allDigits_drop s 6 hdig)
      rw [List.length_drop, hlen] at this
      simpa using this
    refine ⟨jsDateCtorMs tz (toNatDigits (s.take 4))
        ((toNatDigits ((s.drop 4).take 2) : Int) - 1) (toNatDigits (s.drop 6)),
      ?_, ?_⟩
    · unfold parseDateSafe
      rw [if_neg hne, htrim, if_pos h8]
    · unfold jsDateCtorMs
      have hfix : fixTwoDigitYear (toNatDigits (s.take 4) : Int) =
          (toNatDigits (s.take 4) : Int) := by
        unfold fixTwoDigitYear
        rw [if_neg]
        omega
      rw [hfix]
      apply jsMakeDay_ms_pos tz _ _ _ (by exact_mod_cast hy)
        (by omega) (by omega) (by omega)
        (by positivity) (by omega) htz1 htz2

/-- Closed instance of the amended C2 theorem at `s = '19710101'`, `tz = 0`. -/
theorem erpC2_parse_failure_amended_witness :
    parseDateSafe 0 [] = some 0 ∧
      parseDateSafe 0 "not-a-date".toList = none ∧
      ∃ t, parseDateSafe 0 "19710101".toList = some t ∧ 0 < t :=
  erpC2_parse_failure_amended 0 "19710101".toList (by decide) (by decide)
    (by decide) (by decide)

/-- The 8-digit branch of `parseDateSafe`, isolated. -/
theorem parseDateSafe_regex8 (tz : Int) (s : List Char) (h8 : regex8 s = true) :
    parseDateSafe tz s = some (jsDateCtorMs tz (toNatDigits (s.take 4))
      ((toNatDigits ((s.drop 4).take 2) : Int) - 1) (toNatDigits (s.drop 6))) := by
  have hdig : allDigits s = true := by
    simp only [regex8, Bool.decide_and, Bool.and_eq_true, decide_eq_true_eq] at h8
    exact h8.2
  have hne : s ≠ [] := by
    intro h
    simp only [regex8, h, Bool.decide_and, Bool.and_eq_true,
      decide_eq_true_eq] at h8
    simp at h8
  unfold parseDateSafe
  rw [if_neg hne, jsTrim_eq_self_of_allDigits s hdig, if_pos h8]

/-- The generic-parsing branch of `parseDateSafe`, isolated. -/
theorem parseDateSafe_generic (tz : Int) (v : List Char) (h1 : v ≠ [])
    (h2 : regex8 (jsTrim v) = false) (h3 : regex6 (jsTrim v) = false) :
    parseDateSafe tz v = jsDateParseMs tz (jsTrim v) := by
  simp [parseDateSafe, h1, h2, h3]

theorem jsDateCtorMs_eq (tz Y M D k : Int)
    (h : jsMakeDay (fixTwoDigitYear Y) M D = k) :
    jsDateCtorMs tz Y M D = k * 86400000 + tz * 60000 := by
  unfold jsDateCtorMs
  rw [h]

/-! ## C6: the three June-15 encodings (corrected)

`'20250615'` and `'2025/06/15'` both resolve to *local* midnight, but the
dash ISO form `'2025-06-15'` is interpreted as *UTC* midnight by ECMA-262
date-only parsing, so the three coincide only in a zero-offset environment. -/

/-- C6 counterexample: in a UTC+8 environment (offset −480 minutes, e.g.
Asia/Taipei), `parseDateSafe('2025-06-15')` differs from
`parseDateSafe('20250615')`, refuting the claimed three-way equality. -/
theorem erpC6_counterexample :
    parseDateSafe (-480) "2025-06-15".toList ≠
      parseDateSafe (-480) "20250615".toList := by
  decide

/-- C6, amended.  `'20250615'` and `'2025/06/15'` agree for every offset,
both denoting local midnight of June 15 2025 (epoch day 20254);
`'2025-06-15'` denotes UTC midnight of that day and agrees with the other
two exactly when the environment's offset is zero. -/
theorem erpC6_date_formats_amended (tz : Int) :
    parseDateSafe tz "20250615".toList = some (20254 * 86400000 + tz * 60000) ∧
      parseDateSafe tz "2025/06/15".toList =
        some (20254 * 86400000 + tz * 60000) ∧
      parseDateSafe tz "2025-06-15".toList = some (20254 * 86400000) ∧
      (tz = 0 → parseDateSafe tz "2025-06-15".toList =
        parseDateSafe tz "20250615".toList) := by
  have hA : parseDateSafe tz "20250615".toList =
      some (20254 * 86400000 + tz * 60000) := by
    rw [parseDateSafe_regex8 tz _ (by decide)]
    rw [jsDateCtorMs_eq tz _ _ _ 20254 (by decide)]
  have hB : parseDateSafe tz "2025/06/15".toList =
      some (20254 * 86400000 + tz * 60000) := by
    rw [parseDateSafe_generic tz _ (by decide) (by decide) (by decide)]
    unfold jsDateParseMs
    rw [(by decide : jsDateParseRaw (jsTrim "2025/06/15".toList) =
      some (20254, true))]
    rfl
  have hC : parseDateSafe tz "2025-06-15".toList = some (20254 * 86400000) := by
    rw [parseDateSafe_generic tz _ (by decide) (by decide) (by decide)]
    unfold jsDateParseMs
    rw [(by decide : jsDateParseRaw (jsTrim "2025-06-15".toList) =
      some (20254, false))]
    rfl
  refine ⟨hA, hB, hC, fun h0 => ?_⟩
  rw [hA, hC, h0]
  norm_num

/-- Closed instance of the amended C6 theorem at offset 0, discharging the
zero-offset hypothesis of the final conjunct. -/
theorem erpC6_date_formats_amended_witness :
    parseDateSafe 0 "2025-06-15".toList = parseDateSafe 0 "20250615".toList :=
  (erpC6_date_formats_amended 0).2.2.2 rfl

/-! ## C10: 8-digit strings parse with no calendar validation -/

/-- C10.  Every 8-digit input takes the `Date(year, month-1, day)`
constructor path with no calendar validation: the result is exactly the
constructor's value (including the year 0–99 → 1900+y constructor quirk and
month/day rollover, e.g. `'20251315'` rolls into January 15 2026 — epoch day
`daysFromCivil 2026 1 15`), and a pre-1970 digit string such as
`'19500101'` yields a negative timestamp rather than 0. -/
theorem erpC10_eight_digit_no_validation (tz : Int) (s : List Char)
    (h8 : regex8 s = true) :
    parseDateSafe tz s = some (jsDateCtorMs tz (toNatDigits (s.take 4))
        ((toNatDigits ((s.drop 4).take 2) : Int) - 1) (toNatDigits (s.drop 6))) ∧
      parseDateSafe 0 "20251315".toList =
        some (daysFromCivil 2026 1 15 * 86400000) ∧
      parseDateSafe 0 "19500101".toList = some (-631152000000) ∧
      (-631152000000 : Int) < 0 :=
  ⟨parseDateSafe_regex8 tz s h8, by decide, by decide, by decide⟩

/-- Closed instance of the C10 theorem at `s = '20251315'`, `tz = 0`. -/
theorem erpC10_eight_digit_no_validation_witness :
    parseDateSafe 0 "20251315".toList =
      some (jsDateCtorMs 0 (toNatDigits ("20251315".toList.take 4))
        ((toNatDigits (("20251315".toList.drop 4).take 2) : Int) - 1)
        (toNatDigits ("20251315".toList.drop 6))) ∧
      parseDateSafe 0 "20251315".toList =
        some (daysFromCivil 2026 1 15 * 86400000) ∧
      parseDateSafe 0 "19500101".toList = some (-631152000000) ∧
      (-631152000000 : Int) < 0 :=
  erpC10_eight_digit_no_validation 0 "20251315".toList (by decide)

/-! ## C5: the year-repair reference year (corrected)

The claim says the replacement year is the document-date column's year only
when that year is itself plausible (> 2000), falling back to the current
calendar year.  The code performs no plausibility check: any truthy
document-date cell supplies its leading characters as the year, and the
fallback is the hard-coded literal 2025, not the wall clock. -/

/-- C5 counterexample: with document date `0024/01/10` (year 24, not
plausible), the date cell `0023/02/15` is repaired to `0024/02/15` — the
document column's implausible year is used verbatim, and the repaired year
24 is below 2000, whereas the claim mandates a current-calendar-year
replacement (≥ 2000) whenever the document year is not > 2000. -/
theorem erpC5_counterexample :
    cleanAndEnrichData 0 [[("Date".toList, CellValue.str "0024/01/10".toList),
        ("Due".toList, CellValue.str "0023/02/15".toList)]] =
      [[("Date".toList, CellValue.str "0024/01/10".toList),
        ("Due".toList, CellValue.str "0024/02/15".toList)]] ∧
      jsParseInt ((splitSep "0024/02/15".toList).headD []) = some 24 ∧
      (24 : Int) < 2000 := by
  decide

theorem yearFixTriggers_ne_nil {v : List Char}
    (h : yearFixTriggers v = true) : v ≠ [] := by
  intro hv
  rw [hv] at h
  simp [yearFixTriggers, yearFixYear, containsCh] at h

/-- C5, amended.  In the year-repair step the replacement year is the
document-date cell's leading year whenever that cell is truthy — with *no*
plausibility requirement on it — and otherwise the hard-coded literal 2025
(not the wall-clock year).  Stated on a two-column dataset whose first
header carries the document-date role and whose second cell triggers the
repair: the repaired cell is exactly
`replaceYearVal (chooseYear1 docCell) value`, and `chooseYear1` of any
falsy document cell is the constant `'2025'`. -/
theorem erpC5_year_fix_amended (tz : Int) (dv v : List Char)
    (hdv : dv ≠ []) (hdvt : yearFixTriggers dv = false)
    (htrig : yearFixTriggers v = true) :
    cleanAndEnrichData tz
        [[("Date".toList, CellValue.str dv), ("Due".toList, CellValue.str v)]] =
      [[("Date".toList, CellValue.str dv),
        ("Due".toList, CellValue.str
          (replaceYearVal (chooseYear1 (some (CellValue.str dv))) v))]] ∧
      ∀ dc : Option CellValue, cellTruthy dc = false →
        chooseYear1 dc = "2025".toList := by
  constructor
  · have hv : v ≠ [] := yearFixTriggers_ne_nil htrig
    have hcsD : cellStrOrEmpty
        [(['D', 'a', 't', 'e'], CellValue.str dv), (['D', 'u', 'e'], CellValue.str v)]
        ['D', 'a', 't', 'e'] = dv := by
      simp [cellStrOrEmpty, lookupCell, List.find?, cellTruthy, cellToChars, hdv]
    have hcsU : cellStrOrEmpty
        [(['D', 'a', 't', 'e'], CellValue.str dv), (['D', 'u', 'e'], CellValue.str v)]
        ['D', 'u', 'e'] = v := by
      simp [cellStrOrEmpty, lookupCell, List.find?, cellTruthy, cellToChars, hv]
    have hs1D : step1Key (some ['D', 'a', 't', 'e'])
        [(['D', 'a', 't', 'e'], CellValue.str dv), (['D', 'u', 'e'], CellValue.str v)]
        ['D', 'a', 't', 'e'] =
        [(['D', 'a', 't', 'e'], CellValue.str dv), (['D', 'u', 'e'], CellValue.str v)] := by
      simp [step1Key, hcsD, hdv, hdvt]
    have hs1U : step1Key (some ['D', 'a', 't', 'e'])
        [(['D', 'a', 't', 'e'], CellValue.str dv), (['D', 'u', 'e'], CellValue.str v)]
        ['D', 'u', 'e'] =
        [(['D', 'a', 't', 'e'], CellValue.str dv),
         (['D', 'u', 'e'], CellValue.str
           (replaceYearVal (chooseYear1 (some (CellValue.str dv))) v))] := by
      simp [step1Key, hcsU, hv, htrig, lookupCell, List.find?, updateCell]
    simp only [cleanAndEnrichData, rowKeys, List.map_cons, List.map_nil]
    rw [(by decide : findDocDateCol ["Date".toList, "Due".toList] =
        some "Date".toList)]
    rw [(by decide : findPredictedCol ["Date".toList, "Due".toList] = none)]
    rw [(by decide : findActualCol ["Date".toList, "Due".toList] = none)]
    rw [(by decide : findDiffCol ["Date".toList, "Due".toList] = none)]
    simp [cleanRow, step1Row, hs1D, hs1U, step2Row, step3Row]
  · intro dc hdc
    simp [chooseYear1, hdc]

/-- Closed instance of the amended C5 theorem (document year 2024, repaired
cell year 23). -/
theorem erpC5_year_fix_amended_witness :
    cleanAndEnrichData 0
        [[("Date".toList, CellValue.str "2024/01/10".toList),
          ("Due".toList, CellValue.str "0023/02/15".toList)]] =
      [[("Date".toList, CellValue.str "2024/01/10".toList),
        ("Due".toList, CellValue.str
          (replaceYearVal
            (chooseYear1 (some (CellValue.str "2024/01/10".toList)))
            "0023/02/15".toList))]] ∧
      ∀ dc : Option CellValue, cellTruthy dc = false →
        chooseYear1 dc = "2025".toList :=
  erpC5_year_fix_amended 0 "2024/01/10".toList "0023/02/15".toList
    (by decide) (by decide) (by decide)

/-! ## C4: averages divide by the total row count -/

theorem find_map_pair {β : Type} (f : List Char → β) :
    ∀ (l : List (List Char)) (c : List Char), c ∈ l →
      ((l.map (fun x => (x, f x))).find? (fun p => p.1 = c)) = some (c, f c) := by
  intro l
  induction l with
  | nil => intro c hc; cases hc
  | cons x xs ih =>
    intro c hc
    by_cases hx : x = c
    · subst hx
      rw [List.map_cons, List.find?_cons_of_pos _ (by simp)]
    · have hmem : c ∈ xs := by
        rcases List.mem_cons.mp hc with h | h
        · exact absurd h.symm hx
        · exact h
      rw [List.map_cons, List.find?_cons_of_neg _ (by simpa using hx)]
      exact ih c hmem

/-- The dataset of the claim's concrete example: one numeric column `Qty`
with values 10, 0, −5, null, 20 (five rows, four non-null values). -/
def c4SampleData : List Row :=
  [[("Qty".toList, CellValue.num 10)], [("Qty".toList, CellValue.num 0)],
   [("Qty".toList, CellValue.num (-5))], [("Qty".toList, CellValue.nullv)],
   [("Qty".toList, CellValue.num 20)]]

theorem jsRound_eq (x : ℚ) (k : Int) (h1 : (k : ℚ) ≤ x + 1 / 2)
    (h2 : x + 1 / 2 < k + 1) : jsRound x = k := by
  unfold jsRound
  exact Int.floor_eq_iff.mpr ⟨h1, h2⟩

theorem c4_vals : colVals c4SampleData "Qty".toList = [10, 0, -5, 20] := by
  decide

theorem c4_sum : colRawSum c4SampleData "Qty".toList = 25 := by
  unfold colRawSum
  rw [c4_vals]
  norm_num [List.foldl]

theorem c4_min : colMin c4SampleData "Qty".toList = some (-5) := by
  unfold colMin
  rw [c4_vals]
  norm_num [List.foldl]

theorem c4_max : colMax c4SampleData "Qty".toList = some 20 := by
  unfold colMax
  rw [c4_vals]
  norm_num [List.foldl]

theorem c4_finalize : finalizeNumStat c4SampleData "Qty".toList =
    ⟨25, 5, -5, 20⟩ := by
  unfold finalizeNumStat
  rw [c4_sum, c4_min, c4_max]
  have hlen : (c4SampleData.length : ℚ) = 5 := by
    norm_num [c4SampleData]
  rw [hlen]
  have hr1 : round2 (25 : ℚ) = 25 := by
    unfold round2
    rw [jsRound_eq ((25 : ℚ) * 100) 2500 (by norm_num) (by norm_num)]
    norm_num
  have hr2 : round2 ((25 : ℚ) / 5) = 5 := by
    unfold round2
    rw [jsRound_eq ((25 : ℚ) / 5 * 100) 500 (by norm_num) (by norm_num)]
    norm_num
  rw [hr1, hr2]
  simp

/-- C4.  For every dataset and every detected numeric column, the reported
record is `finalizeNumStat`, whose average is the raw column sum divided by
the *total* row count (nulls included in the denominator); on the concrete
column `[10, 0, -5, null, 20]` this yields sum 25, min −5, max 20 and
avg 25/5 = 5 with row count 5 (not 25/4). -/
theorem erpC4_stats_average_denominator (tz : Int) (data : List Row)
    (c : List Char) (hne : data ≠ []) (hc : c ∈ numericColsOf data) :
    ((getDatasetStats tz data).numericStats.find? (fun p => p.1 = c)) =
        some (c, finalizeNumStat data c) ∧
      (finalizeNumStat data c).avg =
        round2 (colRawSum data c / (data.length : ℚ)) ∧
      numericColsOf c4SampleData = ["Qty".toList] ∧
      finalizeNumStat c4SampleData "Qty".toList = ⟨25, 5, -5, 20⟩ ∧
      c4SampleData.length = 5 := by
  refine ⟨?_, rfl, by decide, c4_finalize, by decide⟩
  rcases data with _ | ⟨r0, rest⟩
  · exact absurd rfl hne
  · exact find_map_pair (fun c => finalizeNumStat (r0 :: rest) c) _ c hc

/-- Closed instance of the C4 theorem at the claim's sample dataset. -/
theorem erpC4_stats_average_denominator_witness :
    ((getDatasetStats 0 c4SampleData).numericStats.find?
        (fun p => p.1 = "Qty".toList)) =
        some ("Qty".toList, finalizeNumStat c4SampleData "Qty".toList) ∧
      (finalizeNumStat c4SampleData "Qty".toList).avg =
        round2 (colRawSum c4SampleData "Qty".toList /
          (c4SampleData.length : ℚ)) ∧
      numericColsOf c4SampleData = ["Qty".toList] ∧
      finalizeNumStat c4SampleData "Qty".toList = ⟨25, 5, -5, 20⟩ ∧
      c4SampleData.length = 5 :=
  erpC4_stats_average_denominator 0 c4SampleData "Qty".toList (by decide)
    (by decide)

/-! ## C9: aggregation over an absent column (corrected)

An absent *category* column empties the grouping map, so the result is `[]`.
But an absent *value* column does not: rows still group by category and each
group reduces to 0 (`parseFloat('undefined')` is NaN, coerced to 0), so the
result has one point per category, refuting the claim's "category or value
column" phrasing. -/

/-- C9 counterexample: aggregating the one-row dataset `{a: 'x'}` over the
present category `a` and the absent value column `missing` yields one point
`(x, 0)`, not the empty list the claim requires. -/
theorem erpC9_counterexample :
    aggregateData 0 [[("a".toList, CellValue.str "x".toList)]] "a".toList
        "missing".toList = [⟨"x".toList, 0⟩] ∧
      ([⟨"x".toList, (0 : ℚ)⟩] : List AggPoint) ≠ [] := by
  decide

theorem tallyOf_nil_of_absent (data : List Row) (x y : List Char)
    (mode : AggMode) (hx : ∀ r ∈ data, lookupCell r x = none) :
    tallyOf data x y mode = [] := by
  unfold tallyOf
  induction data with
  | nil => rfl
  | cons r rest ih =>
    rw [List.foldl_cons, hx r (by simp)]
    exact ih (fun r hr => hx r (by simp [hr]))

/-- C9, amended.  Aggregating with a *category* column absent from every
row returns the empty list (and the total embedding never throws); an
absent *value* column instead yields one zero-valued point per category,
as the counterexample shows. -/
theorem erpC9_absent_category_amended (tz : Int) (data : List Row)
    (x y : List Char) (hx : ∀ r ∈ data, lookupCell r x = none) :
    aggregateData tz data x y = [] ∧
      aggregateData 0 [[("a".toList, CellValue.str "x".toList)]] "a".toList
        "missing".toList ≠ [] := by
  refine ⟨?_, by decide⟩
  have hpts : pointsOf data x y (aggMode data y) = [] := by
    unfold pointsOf
    rw [tallyOf_nil_of_absent data x y _ hx]
    rfl
  simp only [aggregateData, hpts]
  simp [sortByLe]

/-- Closed instance of the amended C9 theorem: category column `b` absent
from the single row `{a: 'x'}`. -/
theorem erpC9_absent_category_amended_witness :
    aggregateData 0 [[("a".toList, CellValue.str "x".toList)]] "b".toList
        "c".toList = [] ∧
      aggregateData 0 [[("a".toList, CellValue.str "x".toList)]] "a".toList
        "missing".toList ≠ [] :=
  erpC9_absent_category_amended 0 _ _ _ (by decide)

/-! ## C7: idempotence of the cleaner (corrected)

Machinery: split/join inversion, row-update lemmas, and stability of the
year substitution under a four-character separator-free replacement year. -/

theorem splitBy_ne_nil (sep : Char → Bool) : ∀ s, splitBy sep s ≠ [] := by
  intro s
  induction s with
  | nil => simp [splitBy]
  | cons c r ih =>
    simp only [splitBy]
    by_cases h : sep c
    · simp [h]
    · simp only [h, if_neg, Bool.false_eq_true, not_false_iff]
      cases hr : splitBy sep r with
      | nil => simp
      | cons p ps => simp

theorem splitSep_of_sepFree : ∀ s : List Char, sepFree s = true →
    splitSep s = [s] := by
  intro s
  induction s with
  | nil => intro _; rfl
  | cons c r ih =>
    intro h
    simp only [sepFree, List.all_cons, Bool.and_eq_true] at h
    have hc : isSepCh c = false := by simpa using h.1
    have hr : sepFree r = true := h.2
    show splitBy isSepCh (c :: r) = [c :: r]
    simp only [splitBy, hc, Bool.false_eq_true, if_neg, not_false_iff]
    rw [show splitBy isSepCh r = splitSep r from rfl, ih hr]

theorem splitSep_append_sep (c : Char) (hc : isSepCh c = true) :
    ∀ (p r : List Char), sepFree p = true →
      splitSep (p ++ c :: r) = p :: splitSep r := by
  intro p
  induction p with
  | nil =>
    intro r _
    show splitBy isSepCh (c :: r) = [] :: splitSep r
    simp only [splitBy, hc, if_pos]
    rfl
  | cons a as ih =>
    intro r hp
    simp only [sepFree, List.all_cons, Bool.and_eq_true] at hp
    have ha : isSepCh a = false := by simpa using hp.1
    have ihr := ih r hp.2
    show splitBy isSepCh (a :: (as ++ c :: r)) = (a :: as) :: splitSep r
    simp only [splitBy, ha, Bool.false_eq_true, if_neg, not_false_iff]
    rw [show splitBy isSepCh (as ++ c :: r) = as :: splitBy isSepCh r from ihr]
    rfl

theorem joinSlash_cons (p : List Char) (q : List (List Char)) :
    joinSlash (p :: q) = if q = [] then p else p ++ '/' :: joinSlash q := by
  cases q with
  | nil => simp [joinSlash]
  | cons a b => simp [joinSlash]

theorem splitSep_joinSlash : ∀ (parts : List (List Char)), parts ≠ [] →
    (∀ p ∈ parts, sepFree p = true) → splitSep (joinSlash parts) = parts := by
  intro parts
  induction parts with
  | nil => intro h; exact absurd rfl h
  | cons p ps ih =>
    intro _ hall
    cases ps with
    | nil =>
      simp only [joinSlash]
      exact splitSep_of_sepFree p (hall p (by simp))
    | cons q qs =>
      rw [joinSlash]
      rw [splitSep_append_sep '/' (by decide) p _ (hall p (by simp))]
      rw [ih (by simp) (fun x hx => hall x (by simp [hx]))]

theorem splitSep_parts_sepFree : ∀ (s : List Char), ∀ p ∈ splitSep s,
    sepFree p = true := by
  intro s
  induction s with
  | nil =>
    intro p hp
    simp only [splitSep, splitBy, List.mem_singleton] at hp
    subst hp
    rfl
  | cons c r ih =>
    intro p hp
    simp only [splitSep, splitBy] at hp
    by_cases hc : isSepCh c
    · rw [if_pos hc] at hp
      rcases List.mem_cons.mp hp with rfl | hmem
      · rfl
      · exact ih p hmem
    · rw [if_neg hc] at hp
      rcases hsplit : splitBy isSepCh r with _ | ⟨q, qs⟩
      · exact absurd hsplit (splitBy_ne_nil isSepCh r)
      · rw [hsplit] at hp
        rcases List.mem_cons.mp hp with rfl | hmem
        · have hq : sepFree q = true := by
            have := ih q
            rw [show splitSep r = splitBy isSepCh r from rfl, hsplit] at this
            exact this (by simp)
          simp only [sepFree, List.all_cons, Bool.and_eq_true]
          exact ⟨by simp [hc], hq⟩
        · have := ih p
          rw [show splitSep r = splitBy isSepCh r from rfl, hsplit] at this
          exact this (by simp [hmem])

/-- Stability of the year substitution: substituting a four-character,
separator-free year twice equals substituting it once, for every value. -/
theorem replaceYearVal_stable (y v : List Char) (h4 : y.length = 4)
    (hsf : sepFree y = true) :
    replaceYearVal y (replaceYearVal y v) = replaceYearVal y v := by
  have hparts : ∀ p ∈ (splitSep v).tail, sepFree p = true := by
    intro p hp
    exact splitSep_parts_sepFree v p (List.mem_of_mem_tail hp)
  by_cases hv : v.length = 8
  · -- first application takes the 8-character branch
    have h1 : replaceYearVal y v = y ++ v.drop 4 := by
      unfold replaceYearVal
      rw [if_pos hv]
    have hlen : (y ++ v.drop 4).length = 8 := by
      simp [h4, List.length_drop, hv]
    rw [h1]
    unfold replaceYearVal
    rw [if_pos hlen]
    have : (y ++ v.drop 4).drop 4 = v.drop 4 := by
      have := List.drop_left y (v.drop 4)
      rwa [h4] at this
    rw [this]
  · -- first application takes the split/join branch
    have h1 : replaceYearVal y v = joinSlash (y :: (splitSep v).tail) := by
      unfold replaceYearVal
      rw [if_neg hv]
    rw [h1]
    by_cases hlen : (joinSlash (y :: (splitSep v).tail)).length = 8
    · -- the rejoined value happens to have 8 characters: it starts with y
      unfold replaceYearVal
      rw [if_pos hlen]
      rcases htail : (splitSep v).tail with _ | ⟨q, qs⟩
      · rw [htail] at hlen
        simp only [joinSlash] at hlen
        omega
      · have hj : joinSlash (y :: q :: qs) = y ++ '/' :: joinSlash (q :: qs) :=
          rfl
        rw [hj]
        have hdrop := List.drop_left y ('/' :: joinSlash (q :: qs))
        rw [h4] at hdrop
        rw [hdrop]
    · unfold replaceYearVal
      rw [if_neg hlen]
      rw [splitSep_joinSlash (y :: (splitSep v).tail) (by simp)
        (by
          intro p hp
          rcases List.mem_cons.mp hp with rfl | hmem
          · exact hsf
          · exact hparts p hmem)]
      rfl

theorem rowKeys_updateCell (r : Row) (k : List Char) (v : CellValue) :
    rowKeys (updateCell r k v) = rowKeys r := by
  unfold rowKeys updateCell
  rw [List.map_map]
  apply List.map_congr_left
  intro p _
  by_cases h : p.1 = k <;> simp [h]

theorem lookupCell_updateCell_ne (r : Row) (k k2 : List Char) (v : CellValue)
    (h : k2 ≠ k) : lookupCell (updateCell r k v) k2 = lookupCell r k2 := by
  unfold lookupCell updateCell
  induction r with
  | nil => rfl
  | cons p ps ih =>
    have hkk : ¬ (k = k2) := fun hh => h hh.symm
    by_cases hp : p.1 = k
    · simp only [List.map_cons, hp, if_pos]
      rw [List.find?_cons_of_neg _ (by simp [hp, hkk]),
        List.find?_cons_of_neg _ (by simp [hp, hkk])]
      exact ih
    · simp only [List.map_cons, hp, if_neg, not_false_iff]
      by_cases hp2 : p.1 = k2
      · rw [List.find?_cons_of_pos _ (by simp [hp2]),
          List.find?_cons_of_pos _ (by simp [hp2])]
      · rw [List.find?_cons_of_neg _ (by simp [hp2]),
          List.find?_cons_of_neg _ (by simp [hp2])]
        exact ih

theorem lookupCell_updateCell_self (r : Row) (k : List Char) (v : CellValue)
    (h : (lookupCell r k).isSome) :
    lookupCell (updateCell r k v) k = some v := by
  unfold lookupCell updateCell at *
  induction r with
  | nil => simp [List.find?] at h
  | cons p ps ih =>
    by_cases hp : p.1 = k
    · simp only [List.map_cons, hp, if_pos]
      rw [List.find?_cons_of_pos _ (by simp)]
    · simp only [List.map_cons, hp, if_neg, not_false_iff]
      rw [List.find?_cons_of_neg _ (by simp [hp])]
      rw [List.find?_cons_of_neg _ (by simp [hp])] at h
      exact ih h

theorem mem_updateCell_eq (r : Row) (k : List Char) (v : CellValue)
    (p : List Char × CellValue) (hp : p ∈ updateCell r k v) (hk : p.1 = k) :
    p.2 = v := by
  unfold updateCell at hp
  rcases List.mem_map.mp hp with ⟨q, _, hq⟩
  by_cases hqk : q.1 = k
  · rw [if_pos hqk] at hq
    rw [← hq]
  · rw [if_neg hqk] at hq
    rw [← hq] at hk
    exact absurd hk hqk

theorem mem_updateCell_ne (r : Row) (k : List Char) (v : CellValue)
    (p : List Char × CellValue) (hp : p ∈ updateCell r k v) (hk : p.1 ≠ k) :
    p ∈ r := by
  unfold updateCell at hp
  rcases List.mem_map.mp hp with ⟨q, hqr, hq⟩
  by_cases hqk : q.1 = k
  · rw [if_pos hqk] at hq
    rw [← hq] at hk
    exact absurd hqk hk
  · rw [if_neg hqk] at hq
    rw [← hq]
    exact hqr

theorem updateCell_eq_self (r : Row) (k : List Char) (v : CellValue)
    (h : ∀ p ∈ r, p.1 = k → p.2 = v) : updateCell r k v = r := by
  unfold updateCell
  induction r with
  | nil => rfl
  | cons p ps ih =>
    simp only [List.map_cons]
    have hp : (if p.1 = k then (p.1, v) else p) = p := by
      by_cases h1 : p.1 = k
      · rw [if_pos h1, ← h p (by simp) h1]
      · rw [if_neg h1]
    rw [hp, ih (fun q hq hqk => h q (by simp [hq]) hqk)]

theorem updateCell_updateCell (r : Row) (k : List Char) (v : CellValue) :
    updateCell (updateCell r k v) k v = updateCell r k v := by
  apply updateCell_eq_self
  intro p hp hk
  exact mem_updateCell_eq r k v p hp hk

theorem jsLt_irrefl (x : Option Int) : jsLt x x = false := by
  cases x <;> simp [jsLt]

theorem cellTruthy_isSome {x : Option CellValue} (h : cellTruthy x = true) :
    x.isSome := by
  cases x with
  | none => simp [cellTruthy] at h
  | some v => rfl

theorem step1Key_id (dc : Option (List Char)) (r : Row) (k : List Char)
    (h : yearFixTriggers (cellStrOrEmpty r k) = false) :
    step1Key dc r k = r := by
  simp only [step1Key, h]
  simp

theorem step1Row_id (dc : Option (List Char)) (hs : List (List Char)) (r : Row)
    (h : ∀ k ∈ hs, yearFixTriggers (cellStrOrEmpty r k) = false) :
    step1Row dc hs r = r := by
  unfold step1Row
  induction hs with
  | nil => rfl
  | cons k ks ih =>
    rw [List.foldl_cons, step1Key_id dc r k (h k (by simp))]
    exact ih (fun k2 hk2 => h k2 (by simp [hk2]))

theorem lookupCell_step2Row (tz : Int) (dc pc : Option (List Char)) (x : Row)
    (k : List Char) (h : ∀ pk, pc = some pk → k ≠ pk) :
    lookupCell (step2Row tz dc pc x) k = lookupCell x k := by
  cases dc with
  | none => rfl
  | some dk =>
    cases pc with
    | none => rfl
    | some pk =>
      simp only [step2Row]
      split
      · split
        · exact lookupCell_updateCell_ne x pk k _ (h pk rfl)
        · rfl
      · rfl

theorem lookupCell_step3Row (tz : Int) (pc ac fc : Option (List Char)) (x : Row)
    (k : List Char)
    (h : ∀ pk ak fk, pc = some pk → ac = some ak → fc = some fk → k ≠ fk) :
    lookupCell (step3Row tz pc ac fc x) k = lookupCell x k := by
  cases pc with
  | none => rfl
  | some pk =>
    cases ac with
    | none => rfl
    | some ak =>
      cases fc with
      | none => rfl
      | some fk =>
        simp only [step3Row]
        split
        · split
          · split
            · exact lookupCell_updateCell_ne x fk k _ (h pk ak fk rfl rfl rfl)
            · rfl
          · rfl
        · rfl

theorem mem_step3Row (tz : Int) (pc ac fc : Option (List Char)) (x : Row)
    (p : List Char × CellValue)
    (h : ∀ pk ak fk, pc = some pk → ac = some ak → fc = some fk → p.1 ≠ fk)
    (hp : p ∈ step3Row tz pc ac fc x) : p ∈ x := by
  cases pc with
  | none => exact hp
  | some pk =>
    cases ac with
    | none => exact hp
    | some ak =>
      cases fc with
      | none => exact hp
      | some fk =>
        simp only [step3Row] at hp
        revert hp
        split
        · split
          · split
            · exact fun hp => mem_updateCell_ne x fk _ p hp
                (h pk ak fk rfl rfl rfl)
            · exact id
          · exact id
        · exact id

theorem step2Row_self_col (tz : Int) (dk : List Char) (r : Row) :
    step2Row tz (some dk) (some dk) r = r := by
  simp only [step2Row, jsLt_irrefl]
  simp

/-- A second logic-fix pass leaves the row unchanged, given the relation
between the row `r'` seen by the second pass and the row `r1` seen by the
first pass, and the shape hypothesis on the document reference year. -/
theorem step2Row_pass2 (tz : Int) (dk pk : List Char)
    (r1 r' : Row)
    (hdoc : lookupCell r' dk = lookupCell r1 dk)
    (hcase :
      ((¬ (cellTruthy (lookupCell r1 dk) = true ∧
            cellTruthy (lookupCell r1 pk) = true) ∨
          jsLt (parseDateSafe tz (cellOptToChars (lookupCell r1 pk)))
            (parseDateSafe tz (cellOptToChars (lookupCell r1 dk))) = false) ∧
        lookupCell r' pk = lookupCell r1 pk) ∨
      (∃ P2, lookupCell r' pk = some (CellValue.str P2) ∧
        P2 = replaceYearVal (extractYear2 (cellOptToChars (lookupCell r1 dk)))
          (cellOptToChars (lookupCell r1 pk)) ∧
        (∀ p ∈ r', p.1 = pk → p.2 = CellValue.str P2)))
    (hyear : cellTruthy (lookupCell r' dk) = true →
      cellTruthy (lookupCell r' pk) = true →
      (extractYear2 (cellOptToChars (lookupCell r' dk))).length = 4 ∧
        sepFree (extractYear2 (cellOptToChars (lookupCell r' dk))) = true) :
    step2Row tz (some dk) (some pk) r' = r' := by
  simp only [step2Row]
  by_cases hT : cellTruthy (lookupCell r' dk) = true ∧
      cellTruthy (lookupCell r' pk) = true
  · rw [if_pos hT]
    by_cases hL : jsLt (parseDateSafe tz (cellOptToChars (lookupCell r' pk)))
        (parseDateSafe tz (cellOptToChars (lookupCell r' dk))) = true
    · rw [if_pos hL]
      rcases hcase with ⟨hcond, hpk⟩ | ⟨P2, hpk, hPdef, hmem⟩
      · exfalso
        rw [hdoc, hpk] at hT hL
        rcases hcond with hc | hc
        · exact hc hT
        · rw [hc] at hL
          exact Bool.false_ne_true hL
      · have hY := hyear hT.1 hT.2
        rw [hdoc] at hY
        apply updateCell_eq_self
        intro p hp hpk1
        rw [hmem p hp hpk1]
        rw [hpk, hdoc]
        rw [show cellOptToChars (some (CellValue.str P2)) = P2 from rfl]
        rw [hPdef]
        rw [replaceYearVal_stable _ _ hY.1 hY.2]
    · rw [if_neg hL]
  · rw [if_neg hT]

/-- A second diff-recompute pass leaves the row unchanged, provided the
diff column does not collide with the predicted or actual columns. -/
theorem step3Row_idem (tz : Int) (pc ac fc : Option (List Char)) (x : Row)
    (hdiff : ∀ fk, pc ≠ none → ac ≠ none → fc = some fk →
      pc ≠ some fk ∧ ac ≠ some fk) :
    step3Row tz pc ac fc (step3Row tz pc ac fc x) = step3Row tz pc ac fc x := by
  cases pc with
  | none => rfl
  | some pk =>
    cases ac with
    | none => rfl
    | some ak =>
      cases fc with
      | none => rfl
      | some fk =>
        have hd := hdiff fk (by simp) (by simp) rfl
        have hpf : pk ≠ fk := fun h => hd.1 (by rw [h])
        have haf : ak ≠ fk := fun h => hd.2 (by rw [h])
        by_cases hT : cellTruthy (lookupCell x pk) = true ∧
            cellTruthy (lookupCell x ak) = true
        · rcases hp : parseDateSafe tz (cellOptToChars (lookupCell x pk)) with
            _ | dp
          · have h1 : step3Row tz (some pk) (some ak) (some fk) x = x := by
              simp only [step3Row]
              rw [if_pos hT, hp]
            rw [h1, h1]
          · rcases ha : parseDateSafe tz (cellOptToChars (lookupCell x ak)) with
              _ | da
            · have h1 : step3Row tz (some pk) (some ak) (some fk) x = x := by
                simp only [step3Row]
                rw [if_pos hT, hp, ha]
              rw [h1, h1]
            · by_cases hpos : 0 < dp ∧ 0 < da
              · have h1 : step3Row tz (some pk) (some ak) (some fk) x =
                    updateCell x fk (CellValue.num (ceilDiv (da - dp) 86400000)) := by
                  simp only [step3Row]
                  rw [if_pos hT, hp, ha]
                  show (if 0 < dp ∧ 0 < da then
                      updateCell x fk (CellValue.num (ceilDiv (da - dp) 86400000))
                    else x) =
                    updateCell x fk (CellValue.num (ceilDiv (da - dp) 86400000))
                  rw [if_pos hpos]
                rw [h1]
                simp only [step3Row]
                rw [lookupCell_updateCell_ne x fk pk _ hpf,
                  lookupCell_updateCell_ne x fk ak _ haf]
                rw [if_pos hT, hp, ha]
                show (if 0 < dp ∧ 0 < da then
                    updateCell (updateCell x fk
                      (CellValue.num (ceilDiv (da - dp) 86400000))) fk
                      (CellValue.num (ceilDiv (da - dp) 86400000))
                  else updateCell x fk
                    (CellValue.num (ceilDiv (da - dp) 86400000))) =
                  updateCell x fk (CellValue.num (ceilDiv (da - dp) 86400000))
                rw [if_pos hpos]
                exact updateCell_updateCell x fk _
              · have h1 : step3Row tz (some pk) (some ak) (some fk) x = x := by
                  simp only [step3Row]
                  rw [if_pos hT, hp, ha]
                  show (if 0 < dp ∧ 0 < da then
                      updateCell x fk (CellValue.num (ceilDiv (da - dp) 86400000))
                    else x) = x
                  rw [if_neg hpos]
                rw [h1, h1]
        · have h1 : step3Row tz (some pk) (some ak) (some fk) x = x := by
            simp only [step3Row]
            rw [if_neg hT]
          rw [h1, h1]

theorem rowKeys_step1Key (dc : Option (List Char)) (r : Row) (k : List Char) :
    rowKeys (step1Key dc r k) = rowKeys r := by
  simp only [step1Key]
  split
  · rfl
  · split
    · exact rowKeys_updateCell _ _ _
    · rfl

theorem rowKeys_step1Row (dc : Option (List Char)) (hs : List (List Char)) :
    ∀ r : Row, rowKeys (step1Row dc hs r) = rowKeys r := by
  unfold step1Row
  induction hs with
  | nil => intro r; rfl
  | cons k ks ih =>
    intro r
    rw [List.foldl_cons]
    rw [ih (step1Key dc r k), rowKeys_step1Key]

theorem rowKeys_step2Row (tz : Int) (dc pc : Option (List Char)) (r : Row) :
    rowKeys (step2Row tz dc pc r) = rowKeys r := by
  cases dc with
  | none => rfl
  | some dk =>
    cases pc with
    | none => rfl
    | some pk =>
      simp only [step2Row]
      split
      · split
        · exact rowKeys_updateCell _ _ _
        · rfl
      · rfl

theorem rowKeys_step3Row (tz : Int) (pc ac fc : Option (List Char)) (r : Row) :
    rowKeys (step3Row tz pc ac fc r) = rowKeys r := by
  cases pc with
  | none => rfl
  | some pk =>
    cases ac with
    | none => rfl
    | some ak =>
      cases fc with
      | none => rfl
      | some fk =>
        simp only [step3Row]
        split
        · split
          · split
            · exact rowKeys_updateCell _ _ _
            · rfl
          · rfl
        · rfl

theorem rowKeys_cleanRow (tz : Int) (hs : List (List Char))
    (dc pc ac fc : Option (List Char)) (r : Row) :
    rowKeys (cleanRow tz hs dc pc ac fc r) = rowKeys r := by
  unfold cleanRow
  rw [rowKeys_step3Row, rowKeys_step2Row, rowKeys_step1Row]

/-- A second full cleaning pass leaves a row unchanged, provided the
year-repair no longer fires, the diff column does not collide with the
other roles, and the document reference year has the regular four-character
shape whenever the logic-fix step is live. -/
theorem cleanRow_idem (tz : Int) (hs : List (List Char))
    (dc pc ac fc : Option (List Char)) (r : Row)
    (hnr : ∀ k ∈ hs,
      yearFixTriggers (cellStrOrEmpty (cleanRow tz hs dc pc ac fc r) k) = false)
    (hdiff : ∀ fk, pc ≠ none → ac ≠ none → fc = some fk →
      dc ≠ some fk ∧ pc ≠ some fk ∧ ac ≠ some fk)
    (hyear : ∀ dk pk, dc = some dk → pc = some pk →
      cellTruthy (lookupCell (cleanRow tz hs dc pc ac fc r) dk) = true →
      cellTruthy (lookupCell (cleanRow tz hs dc pc ac fc r) pk) = true →
      (extractYear2 (cellOptToChars
        (lookupCell (cleanRow tz hs dc pc ac fc r) dk))).length = 4 ∧
        sepFree (extractYear2 (cellOptToChars
          (lookupCell (cleanRow tz hs dc pc ac fc r) dk))) = true) :
    cleanRow tz hs dc pc ac fc (cleanRow tz hs dc pc ac fc r) =
      cleanRow tz hs dc pc ac fc r := by
  have h1 : step1Row dc hs (cleanRow tz hs dc pc ac fc r) =
      cleanRow tz hs dc pc ac fc r := step1Row_id _ _ _ hnr
  have h2 : step2Row tz dc pc (cleanRow tz hs dc pc ac fc r) =
      cleanRow tz hs dc pc ac fc r := by
    rcases dc with _ | dk
    · rfl
    rcases pc with _ | pk
    · rfl
    by_cases hpkdk : pk = dk
    · subst hpkdk
      exact step2Row_self_col tz pk _
    · have hkeyd : ∀ pk2 ak fk, (some pk : Option (List Char)) = some pk2 →
          ac = some ak → fc = some fk → dk ≠ fk := by
        intro pk2 ak fk _ ha hf hdf
        exact (hdiff fk (by simp) (by simp [ha]) hf).1 (by rw [hdf])
      have hkeyp : ∀ pk2 ak fk, (some pk : Option (List Char)) = some pk2 →
          ac = some ak → fc = some fk → pk ≠ fk := by
        intro pk2 ak fk _ ha hf hpf
        exact (hdiff fk (by simp) (by simp [ha]) hf).2.1 (by rw [hpf])
      have hdoc : lookupCell (cleanRow tz hs (some dk) (some pk) ac fc r) dk =
          lookupCell (step1Row (some dk) hs r) dk := by
        show lookupCell (step3Row tz (some pk) ac fc (step2Row tz (some dk)
          (some pk) (step1Row (some dk) hs r))) dk = _
        rw [lookupCell_step3Row tz (some pk) ac fc _ dk hkeyd]
        rw [lookupCell_step2Row tz (some dk) (some pk) _ dk
          (by
            intro pk2 hpk2
            rw [Option.some.injEq] at hpk2
            rw [← hpk2]
            exact fun h => hpkdk h.symm)]
      have hpk_pres : lookupCell (cleanRow tz hs (some dk) (some pk) ac fc r)
          pk = lookupCell (step2Row tz (some dk) (some pk)
            (step1Row (some dk) hs r)) pk := by
        show lookupCell (step3Row tz (some pk) ac fc (step2Row tz (some dk)
          (some pk) (step1Row (some dk) hs r))) pk = _
        rw [lookupCell_step3Row tz (some pk) ac fc _ pk hkeyp]
      refine step2Row_pass2 tz dk pk (step1Row (some dk) hs r) _ hdoc ?_
        (hyear dk pk rfl rfl)
      by_cases hT1 : cellTruthy (lookupCell (step1Row (some dk) hs r) dk) =
          true ∧ cellTruthy (lookupCell (step1Row (some dk) hs r) pk) = true
      · by_cases hL1 : jsLt
            (parseDateSafe tz (cellOptToChars
              (lookupCell (step1Row (some dk) hs r) pk)))
            (parseDateSafe tz (cellOptToChars
              (lookupCell (step1Row (some dk) hs r) dk))) = true
        · right
          have hr2eq : step2Row tz (some dk) (some pk)
              (step1Row (some dk) hs r) =
              updateCell (step1Row (some dk) hs r) pk
                (CellValue.str (replaceYearVal
                  (extractYear2 (cellOptToChars
                    (lookupCell (step1Row (some dk) hs r) dk)))
                  (cellOptToChars
                    (lookupCell (step1Row (some dk) hs r) pk)))) := by
            simp only [step2Row]
            rw [if_pos hT1, if_pos hL1]
          refine ⟨replaceYearVal
              (extractYear2 (cellOptToChars
                (lookupCell (step1Row (some dk) hs r) dk)))
              (cellOptToChars (lookupCell (step1Row (some dk) hs r) pk)),
            ?_, rfl, ?_⟩
          · rw [hpk_pres, hr2eq]
            exact lookupCell_updateCell_self _ pk _ (cellTruthy_isSome hT1.2)
          · intro p hp hpk1
            have hp2 : p ∈ step2Row tz (some dk) (some pk)
                (step1Row (some dk) hs r) := by
              refine mem_step3Row tz (some pk) ac fc _ p ?_ hp
              intro pk2 ak fk hpp ha hf
              rw [hpk1]
              exact hkeyp pk2 ak fk hpp ha hf
            rw [hr2eq] at hp2
            exact mem_updateCell_eq _ pk _ p hp2 hpk1
        · left
          have hr2eq : step2Row tz (some dk) (some pk)
              (step1Row (some dk) hs r) = step1Row (some dk) hs r := by
            simp only [step2Row]
            rw [if_pos hT1, if_neg hL1]
          refine ⟨Or.inr (by simpa using hL1), ?_⟩
          rw [hpk_pres, hr2eq]
      · left
        have hr2eq : step2Row tz (some dk) (some pk)
            (step1Row (some dk) hs r) = step1Row (some dk) hs r := by
          simp only [step2Row]
          rw [if_neg hT1]
        refine ⟨Or.inl hT1, ?_⟩
        rw [hpk_pres, hr2eq]
  show step3Row tz pc ac fc (step2Row tz dc pc
    (step1Row dc hs (cleanRow tz hs dc pc ac fc r))) =
    cleanRow tz hs dc pc ac fc r
  rw [h1, h2]
  show step3Row tz pc ac fc (step3Row tz pc ac fc
    (step2Row tz dc pc (step1Row dc hs r))) =
    cleanRow tz hs dc pc ac fc r
  rw [step3Row_idem tz pc ac fc _
    (fun fk hp ha hf => ⟨(hdiff fk hp ha hf).2.1, (hdiff fk hp ha hf).2.2⟩)]
  rfl

/-- The header list the cleaner iterates over: the first row's keys. -/
def headersOf : List Row → List (List Char)
  | [] => []
  | r0 :: _ => rowKeys r0

/-- The claim's hypothesis: after one cleaning pass, the year-repair
condition fires on no cell of any row (checked over the header keys, which
are the keys the repair loop visits). -/
def noYearRetrigger (D : List Row) : Prop :=
  ∀ r ∈ D, ∀ k ∈ headersOf D, yearFixTriggers (cellStrOrEmpty r k) = false

instance noYearRetriggerDecidable (D : List Row) :
    Decidable (noYearRetrigger D) := by
  unfold noYearRetrigger
  infer_instance

/-- The C7 counterexample dataset: the first header carries both the
document-date and the diff-days roles ('Diff Date' contains both 'Diff' and
'Date'), so the recomputed day difference (202406, a 6-digit number that
parses as June 2024) later acts as the document date. -/
def c7Row : Row :=
  [("Diff Date".toList, CellValue.str []),
   ("Planned Date".toList, CellValue.str "202001".toList),
   ("Actual".toList, CellValue.str "25740303".toList)]

/-- C7 counterexample: after one pass the year-repair condition no longer
fires anywhere, yet a second pass changes the predicted-date cell (from
'202001' to '202406'): the diff-days value written into the shared
'Diff Date' column parses as a date and triggers the logic-fix step. -/
theorem erpC7_counterexample :
    noYearRetrigger (cleanAndEnrichData 0 [c7Row]) ∧
      cleanAndEnrichData 0 (cleanAndEnrichData 0 [c7Row]) ≠
        cleanAndEnrichData 0 [c7Row] := by
  constructor
  · decide
  · decide

/-- C7, amended.  `clean(clean(D))` equals `clean(D)` when (a) the
year-repair condition no longer triggers after the first pass, (b) the
diff-days column — when the recompute step is active — is distinct from the
document-date, predicted and actual columns, and (c) in every cleaned row
on which the logic-fix step is live, the extracted document reference year
is a regular four-character, dash/slash-free string. -/
theorem erpC7_clean_idempotent_amended (tz : Int) (D : List Row)
    (hnr : noYearRetrigger (cleanAndEnrichData tz D))
    (hdiff : ∀ fk, findPredictedCol (headersOf D) ≠ none →
      findActualCol (headersOf D) ≠ none →
      findDiffCol (headersOf D) = some fk →
      findDocDateCol (headersOf D) ≠ some fk ∧
        findPredictedCol (headersOf D) ≠ some fk ∧
        findActualCol (headersOf D) ≠ some fk)
    (hyear : ∀ r ∈ cleanAndEnrichData tz D, ∀ dk pk,
      findDocDateCol (headersOf D) = some dk →
      findPredictedCol (headersOf D) = some pk →
      cellTruthy (lookupCell r dk) = true →
      cellTruthy (lookupCell r pk) = true →
      (extractYear2 (cellOptToChars (lookupCell r dk))).length = 4 ∧
        sepFree (extractYear2 (cellOptToChars (lookupCell r dk))) = true) :
    cleanAndEnrichData tz (cleanAndEnrichData tz D) =
      cleanAndEnrichData tz D := by
  rcases D with _ | ⟨r0, rest⟩
  · rfl
  · set f := cleanRow tz (rowKeys r0) (findDocDateCol (rowKeys r0))
      (findPredictedCol (rowKeys r0)) (findActualCol (rowKeys r0))
      (findDiffCol (rowKeys r0)) with hf
    have hkeys : rowKeys (f r0) = rowKeys r0 := by
      rw [hf]
      exact rowKeys_cleanRow _ _ _ _ _ _ _
    have hD : cleanAndEnrichData tz (r0 :: rest) = (r0 :: rest).map f := rfl
    have hD2 : cleanAndEnrichData tz (cleanAndEnrichData tz (r0 :: rest)) =
        (cleanAndEnrichData tz (r0 :: rest)).map f := by
      rw [hD]
      show (f r0 :: rest.map f).map (cleanRow tz (rowKeys (f r0))
        (findDocDateCol (rowKeys (f r0)))
        (findPredictedCol (rowKeys (f r0)))
        (findActualCol (rowKeys (f r0)))
        (findDiffCol (rowKeys (f r0)))) = (f r0 :: rest.map f).map f
      rw [hkeys, ← hf]
    rw [hD2, hD, List.map_map]
    apply List.map_congr_left
    intro r hr
    show f (f r) = f r
    have hmem : f r ∈ cleanAndEnrichData tz (r0 :: rest) := by
      rw [hD]
      exact List.mem_map_of_mem f hr
    have hhd : ∀ k, k ∈ rowKeys r0 →
        k ∈ headersOf (cleanAndEnrichData tz (r0 :: rest)) := by
      intro k hk
      rw [hD]
      show k ∈ rowKeys (f r0)
      rw [hkeys]
      exact hk
    rw [hf]
    apply cleanRow_idem
    · intro k hk
      have := hnr (f r) hmem k (hhd k hk)
      rw [hf] at this
      exact this
    · exact hdiff
    · intro dk pk hdk hpk ht1 ht2
      have := hyear (f r) hmem dk pk hdk hpk
      rw [hf] at this
      exact this ht1 ht2

/-- The regular dataset for the C7 witness: distinct roles, four-digit
document year; the first pass repairs the predicted date `20230115` to
`20240115` and writes diff 157. -/
def c7GoodRow : Row :=
  [("Date".toList, CellValue.str "20240610".toList),
   ("Planned Date".toList, CellValue.str "20230115".toList),
   ("Actual".toList, CellValue.str "20240620".toList),
   ("Diff".toList, CellValue.num 0)]

/-- Closed instance of the amended C7 theorem on the regular dataset,
discharging all three hypotheses. -/
theorem erpC7_clean_idempotent_amended_witness :
    cleanAndEnrichData 0 (cleanAndEnrichData 0 [c7GoodRow]) =
      cleanAndEnrichData 0 [c7GoodRow] := by
  apply erpC7_clean_idempotent_amended
  · decide
  · intro fk h1 h2 hf
    rw [(by decide : findDiffCol (headersOf [c7GoodRow]) =
      some ("Diff".toList)), Option.some.injEq] at hf
    subst hf
    refine ⟨by decide, by decide, by decide⟩
  · intro r hr dk pk hdk hpk
    rw [(by decide : findDocDateCol (headersOf [c7GoodRow]) =
      some ("Date".toList)), Option.some.injEq] at hdk
    rw [(by decide : findPredictedCol (headersOf [c7GoodRow]) =
      some ("Planned Date".toList)), Option.some.injEq] at hpk
    subst hdk
    subst hpk
    rw [(by decide : cleanAndEnrichData 0 [c7GoodRow] =
      [[("Date".toList, CellValue.str "20240610".toList),
        ("Planned Date".toList, CellValue.str "20240115".toList),
        ("Actual".toList, CellValue.str "20240620".toList),
        ("Diff".toList, CellValue.num 157)]]), List.mem_singleton] at hr
    subst hr
    intro _ _
    exact ⟨by decide, by decide⟩

end ErpCore
